import Mathlib

/-!
Shallow embedding of the expense-manager backend (TypeScript/drizzle handlers)
used to check the specification's claims.

Conventions of the embedding:
* the relational store is a `DBState` of in-memory tables (lists of rows, in
  insertion order, as a serial-keyed Postgres table enumerates them);
* `numeric` money columns are modelled as `ℚ` (the handlers parse them with
  `parseFloat` and write them back with `toString`; this round trip is the
  identity in the model);
* `timestamp` columns are modelled as `ℤ`, milliseconds since the Unix epoch
  (the value of JavaScript `Date.prototype.getTime`), with the process in the
  UTC timezone;
* a handler takes the current time `now : ℤ` (JavaScript `Date.now()` /
  `new Date()`) explicitly and returns the persisted state together with an
  `Except String` result mirroring throw/return.
-/

namespace ExpenseManager

/-- `user_role` enum of the schema. -/
inductive UserRole
  | ADMIN
  | MANAGER
  | USER
deriving DecidableEq, Repr

/-- `expense_status` enum of the schema. -/
inductive ExpenseStatus
  | PENDING
  | APPROVED
  | REJECTED
deriving DecidableEq, Repr

/-- `expense_category` enum of the schema. -/
inductive ExpenseCategory
  | FOOD_DINING
  | TRANSPORTATION
  | SHOPPING
  | ENTERTAINMENT
  | BILLS_UTILITIES
  | HEALTHCARE
  | EDUCATION
  | TRAVEL
  | BUSINESS
  | OTHERS
deriving DecidableEq, Repr

/-- `report_type` enum of the schema. -/
inductive ReportType
  | MONTHLY
  | YEARLY
  | CUSTOM
deriving DecidableEq, Repr

/-- A row of `usersTable`.  Only the columns the modelled handlers read are
kept (`id`, `role`, `is_active`); the text/profile columns
(email, username, password hash, names, tokens, timestamps) are never
consulted by the handlers under verification. -/
structure User where
  id : Nat
  role : UserRole
  is_active : Bool
deriving DecidableEq, Repr

/-- A row of `expensesTable`. -/
structure Expense where
  id : Nat
  user_id : Nat
  team_id : Option Nat
  title : String
  description : Option String
  amount : ℚ
  category : ExpenseCategory
  receipt_url : Option String
  status : ExpenseStatus
  approved_by : Option Nat
  approved_at : Option ℤ
  expense_date : ℤ
  is_recurring : Bool
  recurring_frequency : Option String
  tags : Option String
  created_at : ℤ
  updated_at : ℤ
deriving DecidableEq, Repr

/-- A row of `budgetsTable`. -/
structure Budget where
  id : Nat
  user_id : Nat
  category : ExpenseCategory
  monthly_limit : ℚ
  current_spent : ℚ
  alert_threshold : ℤ
  is_active : Bool
  created_at : ℤ
  updated_at : ℤ
deriving DecidableEq, Repr

/-- A row of `reportsTable`. -/
structure Report where
  id : Nat
  user_id : Nat
  type : ReportType
  title : String
  filters : String
  generated_at : ℤ
  file_url : Option String
  expires_at : Option ℤ
deriving DecidableEq, Repr

/-- A row of `teamMembersTable` (`team_id`, `user_id`); the other columns are
never read by the modelled handlers. -/
structure TeamMember where
  team_id : Nat
  user_id : Nat
deriving DecidableEq, Repr

/-- The relational store: each table as its list of rows in insertion order,
plus the next value of each serial primary-key sequence that the modelled
handlers insert into.  Teams are kept as their ids (the handlers under
verification only test a team's existence). -/
structure DBState where
  users : List User
  teams : List Nat
  teamMembers : List TeamMember
  expenses : List Expense
  budgets : List Budget
  reports : List Report
  nextExpenseId : Nat
  nextBudgetId : Nat
  nextReportId : Nat
deriving DecidableEq, Repr

/-- JavaScript truthiness of a `number | null | undefined` value
(`null`, `undefined` and `0` are falsy). -/
def jsTruthyNum : Option Nat → Bool
  | none => false
  | some n => n != 0

/-- JavaScript `x || null` for a `string | null | undefined` value
(the empty string is falsy). -/
def jsOrNullStr : Option String → Option String
  | none => none
  | some s => if s = "" then none else some s

/-- JavaScript `x || d` for an optional string (empty string falls back). -/
def jsOrStr (x : Option String) (d : String) : String :=
  match x with
  | none => d
  | some s => if s = "" then d else s

/-- JavaScript `x || d` for an optional number (`0` falls back). -/
def jsOrNum (x : Option ℚ) (d : ℚ) : ℚ :=
  match x with
  | none => d
  | some a => if a = 0 then d else a

/-- JavaScript `x || false` for an optional boolean. -/
def jsOrFalse : Option Bool → Bool
  | none => false
  | some b => b

/-- Stands for `JSON.stringify` applied to a string array (`input.tags`); the
handlers never parse the stored text back, so only injectivity-free plain
encoding is kept. -/
def jsonStringifyTags (ts : List String) : String :=
  "[" ++ String.intercalate "," ts ++ "]"

/-- `createExpenseInputSchema` (zod): `amount` is `z.number().positive()`,
`expense_date` a date; optional fields model `nullable().optional()`. -/
structure CreateExpenseInput where
  user_id : Nat
  team_id : Option Nat
  title : String
  description : Option String
  amount : ℚ
  category : ExpenseCategory
  receipt_url : Option String
  expense_date : ℤ
  is_recurring : Option Bool
  recurring_frequency : Option String
  tags : Option (List String)
deriving DecidableEq, Repr

/-- The `status` member of `approveExpenseInputSchema`:
`z.enum(['APPROVED', 'REJECTED'])`. -/
inductive ApprovalDecision
  | APPROVED
  | REJECTED
deriving DecidableEq, Repr

/-- The expense status an approval decision writes. -/
def ApprovalDecision.toStatus : ApprovalDecision → ExpenseStatus
  | .APPROVED => .APPROVED
  | .REJECTED => .REJECTED

/-- `approveExpenseInputSchema` (zod). -/
structure ApproveExpenseInput where
  expense_id : Nat
  approved_by : Nat
  status : ApprovalDecision
deriving DecidableEq, Repr

/-- `updateExpenseInputSchema` (zod): every field except `id` optional. -/
structure UpdateExpenseInput where
  id : Nat
  title : Option String
  description : Option String
  amount : Option ℚ
  category : Option ExpenseCategory
  receipt_url : Option String
  expense_date : Option ℤ
  is_recurring : Option Bool
  recurring_frequency : Option String
  tags : Option (List String)
deriving DecidableEq, Repr

/-- `createBudgetInputSchema` (zod): `monthly_limit` positive,
`alert_threshold` an int percentage. -/
structure CreateBudgetInput where
  user_id : Nat
  category : ExpenseCategory
  monthly_limit : ℚ
  alert_threshold : ℤ
deriving DecidableEq, Repr

/-- The row the `INSERT INTO expenses` of `create_expense.ts` stores (the
serial id is the next value of the sequence; `team_id`, `description`,
`receipt_url`, `is_recurring`, `recurring_frequency` go through the
JavaScript `|| null` / `|| false` defaults of the handler). -/
def insertedExpense (st : DBState) (now : ℤ) (input : CreateExpenseInput) :
    Expense :=
  { id := st.nextExpenseId
    user_id := input.user_id
    team_id := if jsTruthyNum input.team_id then input.team_id else none
    title := input.title
    description := jsOrNullStr input.description
    amount := input.amount
    category := input.category
    receipt_url := jsOrNullStr input.receipt_url
    status := .PENDING
    approved_by := none
    approved_at := none
    expense_date := input.expense_date
    is_recurring := jsOrFalse input.is_recurring
    recurring_frequency := jsOrNullStr input.recurring_frequency
    tags := input.tags.map jsonStringifyTags
    created_at := now
    updated_at := now }

/-- `src/server/src/handlers/create_expense.ts`, `createExpense`, with the
point of failure made explicit: the handler runs two sequential statements —
the `INSERT` into `expensesTable` and then the `UPDATE` of
`budgetsTable.current_spent` — with no enclosing transaction, and its `catch`
only logs and rethrows.  `budgetUpdateFails = true` replays the run in which
the second statement raises: the state returned is what the database then
holds.  `budgetUpdateFails = false` is the ordinary run (`createExpense`). -/
def createExpenseRun (st : DBState) (now : ℤ) (input : CreateExpenseInput)
    (budgetUpdateFails : Bool) : DBState × Except String Expense :=
  if (st.users.find? (fun u => u.id == input.user_id)).isNone then
    (st, .error ("User with id " ++ toString input.user_id ++ " not found"))
  else if jsTruthyNum input.team_id &&
      (st.teams.find? (fun t => some t == input.team_id)).isNone then
    (st, .error ("Team with id " ++ toString (input.team_id.getD 0) ++ " not found"))
  else
    -- INSERT INTO expenses ... RETURNING *
    let e : Expense := insertedExpense st now input
    let st1 : DBState :=
      { st with expenses := st.expenses ++ [e], nextExpenseId := st.nextExpenseId + 1 }
    if budgetUpdateFails then
      (st1, .error "budget update statement failed")
    else
      -- UPDATE budgets SET current_spent = current_spent + amount
      -- WHERE user_id = ? AND category = ? AND is_active
      let st2 : DBState :=
        { st1 with budgets := st1.budgets.map (fun b =>
            if b.user_id == input.user_id && b.category == input.category &&
                b.is_active then
              { b with current_spent := b.current_spent + input.amount,
                       updated_at := now }
            else b) }
      (st2, .ok e)

/-- `createExpense` as the handler actually runs (no injected failure). -/
def createExpense (st : DBState) (now : ℤ) (input : CreateExpenseInput) :
    DBState × Except String Expense :=
  createExpenseRun st now input false

/-- The `UPDATE expenses SET status, approved_by, approved_at, updated_at
WHERE id = ?` row function of `approve_expense.ts` (the `RETURNING` rows are
the rows it changed). -/
def approveUpd (input : ApproveExpenseInput) (now : ℤ) (e : Expense) : Expense :=
  if e.id == input.expense_id then
    { e with status := input.status.toStatus
             approved_by := some input.approved_by
             approved_at := if input.status == .APPROVED then some now else none
             updated_at := now }
  else e

/-- `src/server/src/handlers/approve_expense.ts`, `approveExpense`. -/
def approveExpense (st : DBState) (now : ℤ) (input : ApproveExpenseInput) :
    DBState × Except String Expense :=
  match st.users.find? (fun u => u.id == input.approved_by) with
  | none => (st, .error "Approver not found")
  | some approver =>
    if !(approver.role == .ADMIN || approver.role == .MANAGER) then
      (st, .error "Insufficient permissions to approve expenses")
    else
      match st.expenses.find? (fun e => e.id == input.expense_id) with
      | none => (st, .error "Expense not found")
      | some ex =>
        if ex.status != .PENDING then
          (st, .error "Expense is not in pending status")
        else
          let st1 : DBState :=
            { st with expenses := st.expenses.map (approveUpd input now) }
          let updatedExpense : Expense := approveUpd input now ex
          if input.status == .APPROVED then
            -- read-modify-write of the budget row, in application code
            match st1.budgets.find? (fun b =>
                b.user_id == updatedExpense.user_id &&
                b.category == updatedExpense.category && b.is_active) with
            | some currentBudget =>
              let newSpentAmount := currentBudget.current_spent + updatedExpense.amount
              ({ st1 with budgets := st1.budgets.map (fun b =>
                    if b.id == currentBudget.id then
                      { b with current_spent := newSpentAmount, updated_at := now }
                    else b) },
               .ok updatedExpense)
            | none => (st1, .ok updatedExpense)
          else
            (st1, .ok updatedExpense)

/-- `src/server/src/handlers/delete_expense.ts`, `deleteExpense`: returns the
state together with the handler's `{ success, message }` value. -/
def deleteExpense (st : DBState) (now : ℤ) (expenseId userId : Nat) :
    DBState × Bool × String :=
  match st.expenses.find? (fun e => e.id == expenseId && e.user_id == userId) with
  | none =>
    (st, false, "Expense not found or you do not have permission to delete it")
  | some expenseToDelete =>
    -- DELETE FROM expenses WHERE id = ? AND user_id = ?
    let rowCount :=
      st.expenses.countP (fun e => e.id == expenseId && e.user_id == userId)
    let st1 : DBState :=
      { st with expenses :=
          st.expenses.filter (fun e => !(e.id == expenseId && e.user_id == userId)) }
    if rowCount == 0 then
      (st1, false, "Failed to delete expense")
    else if expenseToDelete.status == .APPROVED then
      match st1.budgets.find? (fun b =>
          b.user_id == userId && b.category == expenseToDelete.category &&
          b.is_active) with
      | some currentBudget =>
        let newCurrentSpent :=
          max 0 (currentBudget.current_spent - expenseToDelete.amount)
        ({ st1 with budgets := st1.budgets.map (fun b =>
              if b.id == currentBudget.id then
                { b with current_spent := newCurrentSpent, updated_at := now }
              else b) },
         true, "Expense deleted successfully")
      | none => (st1, true, "Expense deleted successfully")
    else
      (st1, true, "Expense deleted successfully")

/-- The `db.update(expensesTable).set(updateData).where(eq(id))` row function
of the implemented `updateExpense` (`src/unnamed/part_002`): every provided
field of the input overwrites the row's field (`tags` stored through
`JSON.stringify`), `updated_at` is always set, everything else is kept. -/
def updateUpd (input : UpdateExpenseInput) (now : ℤ) (e : Expense) : Expense :=
  if e.id == input.id then
    { e with
      title := (input.title).getD e.title
      description := match input.description with
        | some s => some s
        | none => e.description
      amount := (input.amount).getD e.amount
      category := (input.category).getD e.category
      receipt_url := match input.receipt_url with
        | some s => some s
        | none => e.receipt_url
      expense_date := (input.expense_date).getD e.expense_date
      is_recurring := (input.is_recurring).getD e.is_recurring
      recurring_frequency := match input.recurring_frequency with
        | some s => some s
        | none => e.recurring_frequency
      tags := match input.tags with
        | some ts => some (jsonStringifyTags ts)
        | none => e.tags
      updated_at := now }
  else e

/-- `src/unnamed/part_002`, `updateExpense` — the implemented handler (the
file at `src/server/src/handlers/update_expense.ts` is the scaffold
placeholder this implementation replaced).  It looks the expense up by id
(error when absent), overwrites the provided fields, and, when `amount` or
`category` was provided, adjusts `budgets.current_spent`: on a category
change it subtracts the old amount from every budget row of the expense's
user and old category and adds the new amount to every row of the user and
new category; otherwise, when `amount` was provided (including a provided
`category` equal to the old one), it adds `newAmount - oldAmount` to every
row of the user and new category.  The budget updates carry no `is_active`
filter and no clamping at zero. -/
def updateExpense (st : DBState) (now : ℤ) (input : UpdateExpenseInput) :
    DBState × Except String Expense :=
  match st.expenses.find? (fun e => e.id == input.id) with
  | none =>
    (st, .error ("Expense with id " ++ toString input.id ++ " not found"))
  | some existingExpense =>
    let oldAmount := existingExpense.amount
    let oldCategory := existingExpense.category
    let updatedExpense := updateUpd input now existingExpense
    let st1 : DBState :=
      { st with expenses := st.expenses.map (updateUpd input now) }
    let newAmount := updatedExpense.amount
    let newCategory := updatedExpense.category
    if input.amount.isSome || input.category.isSome then
      if input.category.isSome && oldCategory != newCategory then
        let st2 : DBState :=
          { st1 with budgets := st1.budgets.map (fun b =>
              if b.user_id == updatedExpense.user_id &&
                  b.category == oldCategory then
                { b with current_spent := b.current_spent - oldAmount,
                         updated_at := now }
              else b) }
        let st3 : DBState :=
          { st2 with budgets := st2.budgets.map (fun b =>
              if b.user_id == updatedExpense.user_id &&
                  b.category == newCategory then
                { b with current_spent := b.current_spent + newAmount,
                         updated_at := now }
              else b) }
        (st3, .ok updatedExpense)
      else if input.amount.isSome then
        let amountDifference := newAmount - oldAmount
        let st2 : DBState :=
          { st1 with budgets := st1.budgets.map (fun b =>
              if b.user_id == updatedExpense.user_id &&
                  b.category == newCategory then
                { b with current_spent := b.current_spent + amountDifference,
                         updated_at := now }
              else b) }
        (st2, .ok updatedExpense)
      else
        (st1, .ok updatedExpense)
    else
      (st1, .ok updatedExpense)

/-- Days from the civil epoch 1970-01-01 of year `y`, month `m ∈ [1, 12]`
(linear continuation in the day `d`, so `d = 0` is the day before the first of
the month, as the JavaScript `Date` constructor treats it). -/
def daysFromCivil (y m d : ℤ) : ℤ :=
  let y1 := if m ≤ 2 then y - 1 else y
  let era := Int.fdiv y1 400
  let yoe := y1 - era * 400
  let mp := if 2 < m then m - 3 else m + 9
  let doy := Int.fdiv (153 * mp + 2) 5 + d - 1
  let doe := yoe * 365 + Int.fdiv yoe 4 - Int.fdiv yoe 100 + doy
  era * 146097 + doe - 719468

/-- The epoch milliseconds of `new Date(y, m, d, hh, mi, ss, ms)` (month `m`
0-based and normalized the way the constructor normalizes overflowing
fields; process timezone UTC). -/
def jsDateMs (y m d hh mi ss ms : ℤ) : ℤ :=
  let y1 := y + Int.fdiv m 12
  let m1 := Int.emod m 12
  daysFromCivil y1 (m1 + 1) d * 86400000 +
    hh * 3600000 + mi * 60000 + ss * 1000 + ms

/-- Civil date of a day count from 1970-01-01:
`(year, month0 ∈ [0, 11], day ∈ [1, 31])`. -/
def civilFromDays (z : ℤ) : ℤ × ℤ × ℤ :=
  let z1 := z + 719468
  let era := Int.fdiv z1 146097
  let doe := z1 - era * 146097
  let yoe := Int.fdiv
    (doe - Int.fdiv doe 1460 + Int.fdiv doe 36524 - Int.fdiv doe 146096) 365
  let y := yoe + era * 400
  let doy := doe - (365 * yoe + Int.fdiv yoe 4 - Int.fdiv yoe 100)
  let mp := Int.fdiv (5 * doy + 2) 153
  let d := doy - Int.fdiv (153 * mp + 2) 5 + 1
  let m := if mp < 10 then mp + 3 else mp - 9
  (if m ≤ 2 then y + 1 else y, m - 1, d)

/-- `getFullYear()` of an epoch-millisecond instant (UTC process timezone). -/
def jsYearOf (ms : ℤ) : ℤ := (civilFromDays (Int.fdiv ms 86400000)).1

/-- `getMonth()` (0-based) of an epoch-millisecond instant. -/
def jsMonthOf (ms : ℤ) : ℤ := (civilFromDays (Int.fdiv ms 86400000)).2.1

/-- `create_budget.ts`: `new Date(getFullYear(), getMonth(), 1)` — the first
instant of the current month. -/
def monthStartMs (now : ℤ) : ℤ :=
  jsDateMs (jsYearOf now) (jsMonthOf now) 1 0 0 0 0

/-- `create_budget.ts`: `new Date(getFullYear(), getMonth() + 1, 0, 23, 59,
59, 999)` — the final millisecond of the current month. -/
def monthEndMs (now : ℤ) : ℤ :=
  jsDateMs (jsYearOf now) (jsMonthOf now + 1) 0 23 59 59 999

/-- The first instant of the month after the current one. -/
def nextMonthStartMs (now : ℤ) : ℤ :=
  jsDateMs (jsYearOf now) (jsMonthOf now + 1) 1 0 0 0 0

/-- An instant `d` lies in the same calendar month as `now`: this renders the
specification's phrase "dated in the current calendar month" and is *not* the
condition `create_budget.ts` tests (which is `monthStartMs now ≤ d ∧
d < monthEndMs now`, stopping one millisecond short). -/
def inCurrentCalendarMonth (now d : ℤ) : Prop :=
  monthStartMs now ≤ d ∧ d < nextMonthStartMs now

instance (now d : ℤ) : Decidable (inCurrentCalendarMonth now d) := by
  unfold inCurrentCalendarMonth; infer_instance

/-- The initial `current_spent` that `create_budget.ts` computes: the SQL
`sum(amount)` over the user's expenses of the category with
`expense_date >= monthStart` and `expense_date < monthEnd` (`?: 0` when the
sum is null). -/
def createBudgetInitialSpent (st : DBState) (now : ℤ)
    (userId : Nat) (category : ExpenseCategory) : ℚ :=
  ((st.expenses.filter (fun e =>
      e.user_id == userId && e.category == category &&
      decide (monthStartMs now ≤ e.expense_date) &&
      decide (e.expense_date < monthEndMs now))).map (fun e => e.amount)).sum

/-- `src/server/src/handlers/create_budget.ts`, `createBudget`. -/
def createBudget (st : DBState) (now : ℤ) (input : CreateBudgetInput) :
    DBState × Except String Budget :=
  if (st.users.find? (fun u => u.id == input.user_id)).isNone then
    (st, .error "User not found")
  else if (st.budgets.filter (fun b =>
      b.user_id == input.user_id && b.category == input.category)).length > 0 then
    (st, .error "Budget already exists for this category")
  else
    let b : Budget :=
      { id := st.nextBudgetId
        user_id := input.user_id
        category := input.category
        monthly_limit := input.monthly_limit
        current_spent := createBudgetInitialSpent st now input.user_id input.category
        alert_threshold := input.alert_threshold
        is_active := true
        created_at := now
        updated_at := now }
    ({ st with budgets := st.budgets ++ [b], nextBudgetId := st.nextBudgetId + 1 },
     .ok b)

/-- `generateReportInputSchema` (zod); `include_team_expenses` after its
`default(false)`. -/
structure GenerateReportInput where
  user_id : Nat
  type : ReportType
  title : String
  date_from : ℤ
  date_to : ℤ
  categories : Option (List ExpenseCategory)
  include_team_expenses : Bool
deriving DecidableEq, Repr

/-- `input.type.toLowerCase()` for the generated file name. -/
def ReportType.toLowerText : ReportType → String
  | .MONTHLY => "monthly"
  | .YEARLY => "yearly"
  | .CUSTOM => "custom"

/-- The date/category conditions every fetched expense row of
`generate_report.ts` satisfies. -/
def reportBaseCond (input : GenerateReportInput) (e : Expense) : Bool :=
  decide (input.date_from ≤ e.expense_date) &&
  decide (e.expense_date ≤ input.date_to) &&
  (match input.categories with
   | some cats => if cats.length > 0 then cats.contains e.category else true
   | none => true)

/-- The team-member halves of the joined rows one expense produces under
`expenses LEFT JOIN teams ON team_id = teams.id LEFT JOIN team_members ON
teams.id = team_members.team_id`: one null row when the expense has no team,
the team does not exist or the team has no members, else one row per
member. -/
def reportJoinRows (st : DBState) (e : Expense) : List (Option TeamMember) :=
  match e.team_id with
  | none => [none]
  | some tid =>
    if st.teams.contains tid then
      let ms := st.teamMembers.filter (fun m => m.team_id == tid)
      if ms.isEmpty then [none] else ms.map some
    else [none]

/-- The expense rows `generate_report.ts` fetches (with the join's row
multiplicity when `include_team_expenses` is set). -/
def reportFetch (st : DBState) (input : GenerateReportInput) : List Expense :=
  if input.include_team_expenses then
    st.expenses.flatMap (fun e =>
      (reportJoinRows st e).filterMap (fun tm =>
        if reportBaseCond input e &&
            (e.user_id == input.user_id ||
             (match tm with
              | some m => m.user_id == input.user_id
              | none => false)) then
          some e
        else none))
  else
    st.expenses.filter (fun e =>
      reportBaseCond input e && e.user_id == input.user_id)

/-- JavaScript `Map.prototype.set` on an insertion-ordered association list
(update in place keeps the position; a new key is appended). -/
def jsMapSet {κ β : Type} [BEq κ] (k : κ) (v : β) :
    List (κ × β) → List (κ × β)
  | [] => [(k, v)]
  | (k1, v1) :: rest =>
    if k1 == k then (k, v) :: rest else (k1, v1) :: jsMapSet k v rest

/-- JavaScript `Map.prototype.get` on the same representation. -/
def jsMapGet? {κ β : Type} [BEq κ] (k : κ) : List (κ × β) → Option β
  | [] => none
  | (k1, v1) :: rest => if k1 == k then some v1 else jsMapGet? k rest

/-- `categoryBreakdown` of `generate_report.ts`: a `(count, amount)` record
per category, accumulated over the fetched rows in first-occurrence order. -/
def reportCategoryBreakdown (expenses : List Expense) :
    List (ExpenseCategory × Nat × ℚ) :=
  expenses.foldl (fun acc e =>
    let cur := (jsMapGet? e.category acc).getD (0, 0)
    jsMapSet e.category (cur.1 + 1, cur.2 + e.amount) acc) []

/-- Stands for `JSON.stringify(filterMetadata)`: the handlers never parse the
stored text back, so the metadata is rendered by a fixed plain encoding. -/
def filtersText (input : GenerateReportInput) (totalExpenses : Nat)
    (totalAmount : ℚ) (breakdown : List (ExpenseCategory × Nat × ℚ)) : String :=
  toString input.date_from ++ ";" ++ toString input.date_to ++ ";" ++
    toString (input.categories.getD []).length ++ ";" ++
    toString input.include_team_expenses ++ ";" ++
    toString totalExpenses ++ ";" ++ toString totalAmount ++ ";" ++
    String.intercalate ","
      (breakdown.map (fun p => toString (repr p.1) ++ ":" ++ toString p.2.1 ++
        ":" ++ toString p.2.2))

/-- The expiration `generate_report.ts` assigns: `Date.now()` plus 60 days
for `MONTHLY`, 365 days for `YEARLY`, 30 days for `CUSTOM`. -/
def reportExpiresAt (now : ℤ) : ReportType → ℤ
  | .MONTHLY => now + 60 * 24 * 60 * 60 * 1000
  | .YEARLY => now + 365 * 24 * 60 * 60 * 1000
  | .CUSTOM => now + 30 * 24 * 60 * 60 * 1000

/-- `src/server/src/handlers/generate_report.ts`, `generateReport`. -/
def generateReport (st : DBState) (now : ℤ) (input : GenerateReportInput) :
    DBState × Except String Report :=
  if input.date_from > input.date_to then
    (st, .error "Invalid date range: date_from must be before or equal to date_to")
  else if (st.users.find? (fun u => u.id == input.user_id)).isNone then
    (st, .error ("User with id " ++ toString input.user_id ++ " not found"))
  else
    let expenses := reportFetch st input
    let totalExpenses := expenses.length
    let totalAmount := (expenses.map (fun e => e.amount)).sum
    let categoryBreakdown := reportCategoryBreakdown expenses
    let fileUrl := "/reports/" ++ toString input.user_id ++ "_" ++ toString now ++
      "_" ++ input.type.toLowerText ++ ".pdf"
    let r : Report :=
      { id := st.nextReportId
        user_id := input.user_id
        type := input.type
        title := input.title
        filters := filtersText input totalExpenses totalAmount categoryBreakdown
        generated_at := now
        file_url := some fileUrl
        expires_at := some (reportExpiresAt now input.type) }
    ({ st with reports := st.reports ++ [r], nextReportId := st.nextReportId + 1 },
     .ok r)

/-- The `ORDER BY generated_at DESC` of `getUserReports`, as a stable sort. -/
def reportNewerFirst : Report → Report → Prop :=
  fun a b => b.generated_at ≤ a.generated_at

instance : DecidableRel reportNewerFirst := by
  unfold reportNewerFirst; infer_instance

/-- `src/unnamed/part_004`, `getUserReports`: the user's reports newest
first, those with a non-null `expires_at` not after `now` filtered out. -/
def getUserReports (st : DBState) (now : ℤ) (userId : Nat) : List Report :=
  ((st.reports.filter (fun r => r.user_id == userId)).insertionSort
      reportNewerFirst).filter (fun r =>
    match r.expires_at with
    | none => true
    | some t => decide (now < t))

/-- The `file` argument of `uploadReceipt` (`buffer.length` is the byte
count). -/
structure UploadedFile where
  contents : List Nat
  filename : String
  mimetype : String
deriving DecidableEq, Repr

/-- The handler's `{ success, file_url, message }` value. -/
structure UploadResult where
  success : Bool
  file_url : String
  message : String
deriving DecidableEq, Repr

/-- `ALLOWED_MIME_TYPES` of `src/unnamed/part_004`. -/
def ALLOWED_MIME_TYPES : List String :=
  ["image/jpeg", "image/jpg", "image/png", "image/gif", "image/webp",
   "application/pdf"]

/-- `MAX_FILE_SIZE` (5 MB in bytes). -/
def MAX_FILE_SIZE : Nat := 5 * 1024 * 1024

/-- `MIME_TYPE_EXTENSIONS` lookup. -/
def mimeTypeExtension (m : String) : Option String :=
  [("image/jpeg", "jpg"), ("image/jpg", "jpg"), ("image/png", "png"),
   ("image/gif", "gif"), ("image/webp", "webp"),
   ("application/pdf", "pdf")].lookup m

/-- The catch branch of `uploadReceipt`: a structured failure value. -/
def uploadFailure (msg : String) : UploadResult :=
  { success := false, file_url := "", message := "Upload failed: " ++ msg }

/-- `src/unnamed/part_004`, `uploadReceipt`.  `storageBaseUrl` is
`process.env['STORAGE_BASE_URL']`, `nowMs` the `Date.now()` timestamp and
`randomId` the random slug; the database state is returned alongside the
result (the handler only ever reads from it). -/
def uploadReceipt (st : DBState) (storageBaseUrl : Option String) (nowMs : ℤ)
    (randomId : String) (userId : Nat) (file : UploadedFile) :
    UploadResult × DBState :=
  match st.users.find? (fun u => u.id == userId) with
  | none =>
    (uploadFailure ("User with ID " ++ toString userId ++ " not found"), st)
  | some user =>
    if !user.is_active then
      (uploadFailure "User account is not active", st)
    else if !(ALLOWED_MIME_TYPES.contains file.mimetype) then
      (uploadFailure ("Invalid file type. Allowed types: " ++
        String.intercalate ", " ALLOWED_MIME_TYPES), st)
    else if file.contents.length > MAX_FILE_SIZE then
      (uploadFailure "File size too large. Maximum size allowed: 5MB", st)
    else if file.contents.length == 0 then
      (uploadFailure "File is empty", st)
    else
      let extension := (mimeTypeExtension file.mimetype).getD "undefined"
      let uniqueFilename := "receipt_" ++ toString userId ++ "_" ++
        toString nowMs ++ "_" ++ randomId ++ "." ++ extension
      let baseStorageUrl := jsOrStr storageBaseUrl "https://storage.example.com"
      ({ success := true
         file_url := baseStorageUrl ++ "/receipts/" ++ uniqueFilename
         message := "Receipt uploaded successfully" }, st)

/-- The `period` argument of `getExpenseAnalytics`. -/
inductive AnalyticsPeriod
  | month
  | year
  | custom
deriving DecidableEq, Repr

/-- One entry of `spending_by_category`. -/
structure CategorySpending where
  category : ExpenseCategory
  amount : ℚ
  percentage : ℚ
deriving DecidableEq, Repr

/-- One entry of `spending_trends` (the `date` key is the ISO day or the
`YYYY-MM` month). -/
structure TrendPoint where
  date : String
  amount : ℚ
deriving DecidableEq, Repr

/-- One entry of `budget_performance`. -/
structure BudgetPerformance where
  category : ExpenseCategory
  budgeted : ℚ
  spent : ℚ
  remaining : ℚ
deriving DecidableEq, Repr

/-- One entry of `top_expenses`. -/
structure TopExpense where
  title : String
  amount : ℚ
  date : ℤ
  category : ExpenseCategory
deriving DecidableEq, Repr

/-- One entry of `predictions.budget_alerts`. -/
structure BudgetAlert where
  category : ExpenseCategory
  projected_overspend : ℚ
deriving DecidableEq, Repr

/-- The `predictions` record. -/
structure Predictions where
  next_month_spending : ℚ
  budget_alerts : List BudgetAlert
deriving DecidableEq, Repr

/-- The value `getExpenseAnalytics` resolves to. -/
structure Analytics where
  spending_by_category : List CategorySpending
  spending_trends : List TrendPoint
  budget_performance : List BudgetPerformance
  top_expenses : List TopExpense
  predictions : Predictions
deriving DecidableEq, Repr

/-- `calculateDateRange` of `src/unnamed/part_007` (throws for a custom
period without both bounds). -/
def calculateDateRange (period : AnalyticsPeriod)
    (startDate endDate : Option ℤ) (now : ℤ) : Except String (ℤ × ℤ) :=
  match period with
  | .custom =>
    match startDate, endDate with
    | some s, some e => .ok (s, e)
    | _, _ => .error "Custom period requires startDate and endDate"
  | .month =>
    .ok (jsDateMs (jsYearOf now) (jsMonthOf now) 1 0 0 0 0,
         jsDateMs (jsYearOf now) (jsMonthOf now + 1) 0 0 0 0 0)
  | .year =>
    .ok (jsDateMs (jsYearOf now) 0 1 0 0 0 0,
         jsDateMs (jsYearOf now) 11 31 0 0 0 0)

/-- Per-category totals accumulated with a JavaScript `Map` in
first-occurrence order (`calculateSpendingByCategory`,
`calculateBudgetPerformance` and `calculatePredictions` all build this). -/
def categoryTotalsOf (expenses : List Expense) :
    List (ExpenseCategory × ℚ) :=
  expenses.foldl (fun acc e =>
    jsMapSet e.category ((jsMapGet? e.category acc).getD 0 + e.amount) acc) []

/-- The descending-amount comparator `(a, b) => b.amount - a.amount`. -/
def moreSpending : CategorySpending → CategorySpending → Prop :=
  fun a b => b.amount ≤ a.amount

instance : DecidableRel moreSpending := by
  unfold moreSpending; infer_instance

/-- `calculateSpendingByCategory` of `src/unnamed/part_007`. -/
def calculateSpendingByCategory (expenses : List Expense) :
    List CategorySpending :=
  let categoryTotals := categoryTotalsOf expenses
  let totalSpending : ℚ := expenses.foldl (fun t e => t + e.amount) 0
  let result : List CategorySpending := categoryTotals.map (fun p =>
    { category := p.1
      amount := p.2
      percentage := if totalSpending > 0 then p.2 / totalSpending * 100 else 0 })
  result.insertionSort moreSpending

/-- Two-digit zero padding of a day/month field. -/
def pad2 (n : ℤ) : String :=
  if n < 10 then "0" ++ toString n else toString n

/-- Four-digit zero padding of a year field. -/
def pad4 (n : ℤ) : String :=
  if n < 10 then "000" ++ toString n
  else if n < 100 then "00" ++ toString n
  else if n < 1000 then "0" ++ toString n
  else toString n

/-- `expense_date.toISOString().split('T')[0]` — the UTC `YYYY-MM-DD` key of
an instant (for years of the four-digit era). -/
def isoDateKey (ms : ℤ) : String :=
  let c := civilFromDays (Int.fdiv ms 86400000)
  pad4 c.1 ++ "-" ++ pad2 (c.2.1 + 1) ++ "-" ++ pad2 c.2.2

/-- Ascending `localeCompare` order on trend keys (ISO keys compare
lexicographically, which is chronologically). -/
def trendEarlier : TrendPoint → TrendPoint → Prop :=
  fun a b => a.date ≤ b.date

instance : DecidableRel trendEarlier := by
  unfold trendEarlier; infer_instance

/-- `calculateSpendingTrends` of `src/unnamed/part_007`. -/
def calculateSpendingTrends (expenses : List Expense)
    (period : AnalyticsPeriod) : List TrendPoint :=
  let dailyTotals := expenses.foldl (fun acc e =>
    let k := isoDateKey e.expense_date
    jsMapSet k ((jsMapGet? k acc).getD 0 + e.amount) acc) ([] : List (String × ℚ))
  let trends := (dailyTotals.map (fun p =>
    { date := p.1, amount := p.2 : TrendPoint })).insertionSort trendEarlier
  if period = .year then
    let monthlyTotals := trends.foldl (fun acc t =>
      let k := t.date.take 7
      jsMapSet k ((jsMapGet? k acc).getD 0 + t.amount) acc) ([] : List (String × ℚ))
    (monthlyTotals.map (fun p =>
      { date := p.1, amount := p.2 : TrendPoint })).insertionSort trendEarlier
  else
    trends

/-- Descending budget-utilisation order `(b.spent / b.budgeted)` (in `ℚ`,
where division by zero yields `0` — the schema keeps `monthly_limit`
positive, so the handler never divides by zero on schema-conforming rows). -/
def moreUtilised : BudgetPerformance → BudgetPerformance → Prop :=
  fun a b => b.spent / b.budgeted ≤ a.spent / a.budgeted

instance : DecidableRel moreUtilised := by
  unfold moreUtilised; infer_instance

/-- `calculateBudgetPerformance` of `src/unnamed/part_007`. -/
def calculateBudgetPerformance (expenses : List Expense)
    (budgets : List Budget) (period : AnalyticsPeriod) :
    List BudgetPerformance :=
  let categorySpending := categoryTotalsOf expenses
  let performance : List BudgetPerformance := budgets.map (fun b =>
    let spent := (jsMapGet? b.category categorySpending).getD 0
    let budgeted := if period = .year then b.monthly_limit * 12 else b.monthly_limit
    { category := b.category, budgeted := budgeted, spent := spent,
      remaining := budgeted - spent })
  performance.insertionSort moreUtilised

/-- Descending-amount order on top expenses. -/
def biggerExpense : TopExpense → TopExpense → Prop :=
  fun a b => b.amount ≤ a.amount

instance : DecidableRel biggerExpense := by
  unfold biggerExpense; infer_instance

/-- `getTopExpenses` of `src/unnamed/part_007`. -/
def getTopExpenses (expenses : List Expense) : List TopExpense :=
  ((expenses.map (fun e =>
    { title := e.title, amount := e.amount, date := e.expense_date,
      category := e.category : TopExpense })).insertionSort
      biggerExpense).take 10

/-- `24 * 60 * 60 * 1000`. -/
def msPerDay : ℤ := 86400000

/-- `Math.ceil(a / b)` for integers with `b > 0`. -/
def ceilDivInt (a b : ℤ) : ℤ := -(Int.fdiv (-a) b)

/-- `Math.min(...)` over a list of instants (the empty case never runs: the
caller guards on a non-empty list). -/
def listMinInt : List ℤ → ℤ
  | [] => 0
  | x :: xs => xs.foldl min x

/-- The recency filter of `calculatePredictions`: expenses dated on or after
`now` minus thirty days. -/
def recentExpensesOf (now : ℤ) (expenses : List Expense) : List Expense :=
  expenses.filter (fun e => decide (now - 30 * msPerDay ≤ e.expense_date))

/-- `daysWithData` of `calculatePredictions`: `max(1, ceil((now - earliest) /
day))` over the recent expenses, or `30` when there are none. -/
def daysWithDataOf (now : ℤ) (recent : List Expense) : ℤ :=
  if recent.length > 0 then
    max 1 (ceilDivInt (now - listMinInt (recent.map (fun e => e.expense_date)))
      msPerDay)
  else 30

/-- Descending projected-overspend order. -/
def biggerOverspend : BudgetAlert → BudgetAlert → Prop :=
  fun a b => b.projected_overspend ≤ a.projected_overspend

instance : DecidableRel biggerOverspend := by
  unfold biggerOverspend; infer_instance

/-- `calculatePredictions` of `src/unnamed/part_007`. -/
def calculatePredictions (now : ℤ) (expenses : List Expense)
    (budgets : List Budget) : Predictions :=
  let recentExpenses := recentExpensesOf now expenses
  let totalRecentSpending : ℚ :=
    recentExpenses.foldl (fun t e => t + e.amount) 0
  let daysWithData := daysWithDataOf now recentExpenses
  let averageDailySpending : ℚ := totalRecentSpending / (daysWithData : ℚ)
  let categorySpending := categoryTotalsOf recentExpenses
  let budget_alerts :=
    ((budgets.map (fun b =>
        let recentSpending := (jsMapGet? b.category categorySpending).getD 0
        let categoryDaysWithData := max 1 daysWithData
        let projectedMonthlySpending :=
          recentSpending / (categoryDaysWithData : ℚ) * 30
        { category := b.category
          projected_overspend := max 0 (projectedMonthlySpending - b.monthly_limit)
          : BudgetAlert })).filter
      (fun a => a.projected_overspend > 0)).insertionSort biggerOverspend
  { next_month_spending := averageDailySpending * 30
    budget_alerts := budget_alerts }

/-- The amount total of the expenses of one category (what one JavaScript
`Map` slot holds after the grouping folds). -/
def catSum (c : ExpenseCategory) (es : List Expense) : ℚ :=
  ((es.filter (fun e => e.category == c)).map (fun e => e.amount)).sum

/-- The amount total of a list of expenses. -/
def amountSum (es : List Expense) : ℚ :=
  (es.map (fun e => e.amount)).sum

instance : IsTotal CategorySpending moreSpending :=
  ⟨fun a b => le_total b.amount a.amount⟩

instance : IsTrans CategorySpending moreSpending :=
  ⟨fun _ _ _ hab hbc => le_trans hbc hab⟩

instance : IsTotal BudgetAlert biggerOverspend :=
  ⟨fun a b => le_total b.projected_overspend a.projected_overspend⟩

instance : IsTrans BudgetAlert biggerOverspend :=
  ⟨fun _ _ _ hab hbc => le_trans hbc hab⟩

/-- The `ORDER BY expense_date DESC` of the analytics fetch. -/
def expenseNewerFirst : Expense → Expense → Prop :=
  fun a b => b.expense_date ≤ a.expense_date

instance : DecidableRel expenseNewerFirst := by
  unfold expenseNewerFirst; infer_instance

/-- The expenses `getExpenseAnalytics` fetches: the user's expenses inside
the computed date range, newest first. -/
def analyticsFetch (st : DBState) (userId : Nat) (dateFrom dateTo : ℤ) :
    List Expense :=
  (st.expenses.filter (fun e =>
    e.user_id == userId && decide (dateFrom ≤ e.expense_date) &&
      decide (e.expense_date ≤ dateTo))).insertionSort expenseNewerFirst

/-- The user's active budgets, as the analytics handler fetches them. -/
def activeBudgetsOf (st : DBState) (userId : Nat) : List Budget :=
  st.budgets.filter (fun b => b.user_id == userId && b.is_active)

/-- `getExpenseAnalytics` of `src/unnamed/part_007`. -/
def getExpenseAnalytics (st : DBState) (now : ℤ) (userId : Nat)
    (period : AnalyticsPeriod) (startDate endDate : Option ℤ) :
    Except String Analytics :=
  match calculateDateRange period startDate endDate now with
  | .error msg => .error msg
  | .ok range =>
    let processedExpenses := analyticsFetch st userId range.1 range.2
    let processedBudgets := activeBudgetsOf st userId
    .ok
      { spending_by_category := calculateSpendingByCategory processedExpenses
        spending_trends := calculateSpendingTrends processedExpenses period
        budget_performance :=
          calculateBudgetPerformance processedExpenses processedBudgets period
        top_expenses := getTopExpenses processedExpenses
        predictions := calculatePredictions now processedExpenses processedBudgets }

/-- The validation conjunction of `uploadReceipt`: the user exists and is
active, the mimetype is allowed, the buffer is at most 5 MB and not empty
(the only conditions the handler's try block tests). -/
def uploadAccepted (st : DBState) (userId : Nat) (file : UploadedFile) : Bool :=
  match st.users.find? (fun u => u.id == userId) with
  | none => false
  | some u =>
    u.is_active && ALLOWED_MIME_TYPES.contains file.mimetype &&
      decide (file.contents.length ≤ MAX_FILE_SIZE) &&
      (file.contents.length != 0)

/-! ## Operation sequences over the expense tables (claim C1) -/

/-- One invocation of an expense handler. -/
inductive Op
  | createE (input : CreateExpenseInput)
  | updateE (input : UpdateExpenseInput)
  | deleteE (expenseId userId : Nat)
  | approveE (input : ApproveExpenseInput)
deriving DecidableEq, Repr

/-- A database state together with the expense rows the run has deleted so
far (a history component: `deleteExpense` physically removes rows, and what
it leaves in `current_spent` depends on them). -/
structure Trace where
  db : DBState
  deleted : List Expense
deriving DecidableEq, Repr

/-- The rows a `deleteExpense eid uid` call removes from a state. -/
def deletedRows (st : DBState) (eid uid : Nat) : List Expense :=
  st.expenses.filter (fun e => e.id == eid && e.user_id == uid)

/-- Run one timestamped operation through the corresponding handler (a
handler that throws leaves the state as the handler leaves it). -/
def stepOp (tr : Trace) (p : ℤ × Op) : Trace :=
  match p.2 with
  | .createE input => { tr with db := (createExpense tr.db p.1 input).1 }
  | .updateE input => { tr with db := (updateExpense tr.db p.1 input).1 }
  | .approveE input => { tr with db := (approveExpense tr.db p.1 input).1 }
  | .deleteE eid uid =>
    { db := (deleteExpense tr.db p.1 eid uid).1
      deleted := tr.deleted ++ deletedRows tr.db eid uid }

/-- Run a sequence of timestamped operations. -/
def runOps (tr : Trace) (ops : List (ℤ × Op)) : Trace :=
  ops.foldl stepOp tr

/-- An expense belongs to a budget's user and category. -/
def expenseMatches (b : Budget) (e : Expense) : Bool :=
  e.user_id == b.user_id && e.category == b.category

/-- The contribution of one expense row to the claim's sum: its amount when
it belongs to the budget, else nothing. -/
def onceContrib (b : Budget) (e : Expense) : ℚ :=
  if expenseMatches b e then e.amount else 0

/-- The claim's sum: each matching expense's amount counted exactly once. -/
def onceSum (b : Budget) (es : List Expense) : ℚ :=
  (es.map (onceContrib b)).sum

/-- How often the handlers have added an expense's amount into
`current_spent`: once at creation, and a second time at approval. -/
def approvalWeight (e : Expense) : ℚ :=
  if e.status = .APPROVED then 2 else 1

/-- The contribution of one expense row to what the handlers actually keep in
`current_spent`. -/
def weightedContrib (b : Budget) (e : Expense) : ℚ :=
  if expenseMatches b e then e.amount * approvalWeight e else 0

/-- The sum the handlers actually maintain over the live rows: matching
amounts, `APPROVED` ones counted twice. -/
def weightedSum (b : Budget) (es : List Expense) : ℚ :=
  (es.map (weightedContrib b)).sum

/-- The consistency property claim C1 states: every active budget's
`current_spent` is the sum of the matching expense amounts, each counted
exactly once. -/
def budgetConsistent (st : DBState) : Prop :=
  ∀ b ∈ st.budgets, b.is_active = true → b.current_spent = onceSum b st.expenses

instance (st : DBState) : Decidable (budgetConsistent st) := by
  unfold budgetConsistent; infer_instance

/-- The consistency the handlers actually maintain: every active budget's
`current_spent` is the weighted sum over the live rows (`APPROVED` counted
twice) plus the amount of every expense deleted so far, counted once. -/
def traceConsistent (tr : Trace) : Prop :=
  ∀ b ∈ tr.db.budgets, b.is_active = true →
    b.current_spent = weightedSum b tr.db.expenses + onceSum b tr.deleted

instance (tr : Trace) : Decidable (traceConsistent tr) := by
  unfold traceConsistent; infer_instance

/-- No two rows of the budget table are active for the same user and
category (what `createBudget`'s duplicate check enforces). -/
def activeKeysDistinct (st : DBState) : Prop :=
  st.budgets.Pairwise (fun b1 b2 =>
    ¬(b1.is_active = true ∧ b2.is_active = true ∧
      b1.user_id = b2.user_id ∧ b1.category = b2.category))

instance (st : DBState) : Decidable (activeKeysDistinct st) := by
  unfold activeKeysDistinct; infer_instance

/-- Structural well-formedness of a state: serial primary keys are distinct
and ahead of the sequence, at most one active budget per (user, category),
and every stored amount is positive (`z.number().positive()` of the expense
input schema). -/
def WellFormedDB (st : DBState) : Prop :=
  (st.budgets.map (fun b => b.id)).Nodup ∧
  activeKeysDistinct st ∧
  (st.expenses.map (fun e => e.id)).Nodup ∧
  (∀ e ∈ st.expenses, e.id < st.nextExpenseId) ∧
  (∀ e ∈ st.expenses, 0 < e.amount)

instance (st : DBState) : Decidable (WellFormedDB st) := by
  unfold WellFormedDB; infer_instance

/-- Well-formedness of a trace: the state is well-formed and every recorded
deleted row had a positive amount. -/
def WellFormedTrace (tr : Trace) : Prop :=
  WellFormedDB tr.db ∧ ∀ e ∈ tr.deleted, 0 < e.amount

instance (tr : Trace) : Decidable (WellFormedTrace tr) := by
  unfold WellFormedTrace; infer_instance

/-- The input-schema fact an operation carries: a created expense has a
positive amount (`amount: z.number().positive()`). -/
def opAmountsPos : Op → Prop
  | .createE input => 0 < input.amount
  | _ => True

instance (op : Op) : Decidable (opAmountsPos op) := by
  unfold opAmountsPos; cases op <;> infer_instance

/-! ## The budget read-modify-write of `approveExpense` under interleaving
(claim C4).

`approve_expense.ts` lines 53–74 update the budget row in two database
statements with the arithmetic in between performed by the application: a
`SELECT` that reads `current_spent`, then an `UPDATE` that writes
`current_spent = <read value> + expenseAmount`.  Each statement is atomic at
the database, so a pair of concurrent calls on the same row is an
interleaving of these events. -/

/-- Where one `approveExpense` call stands in its budget read-modify-write:
before its `SELECT`, holding the value it read and about to issue its
`UPDATE`, or done. -/
inductive RMWPhase
  | toRead
  | toWrite (localSpent : ℚ)
  | finished
deriving DecidableEq, Repr

/-- One in-flight `approveExpense` call, reduced to its budget effect: the
approved expense's amount and its phase. -/
structure ApprovalCall where
  amount : ℚ
  phase : RMWPhase
deriving DecidableEq, Repr

/-- A fresh call that has not read yet. -/
def approvalCall (amount : ℚ) : ApprovalCall :=
  { amount := amount, phase := .toRead }

/-- Execute one atomic statement of a call against the shared
`current_spent` cell: the read stores the cell into the call; the write
stores `read value + amount` into the cell (the `newSpentAmount`
computation of `approve_expense.ts`). -/
def rmwStep (spent : ℚ) (t : ApprovalCall) : ℚ × ApprovalCall :=
  match t.phase with
  | .toRead => (spent, { t with phase := .toWrite spent })
  | .toWrite localSpent => (localSpent + t.amount, { t with phase := .finished })
  | .finished => (spent, t)

/-- Run an interleaving of two calls: `false` steps the first call, `true`
the second. -/
def runRMWSchedule (spent : ℚ) (t1 t2 : ApprovalCall) :
    List Bool → ℚ × ApprovalCall × ApprovalCall
  | [] => (spent, t1, t2)
  | b :: rest =>
    if b then
      let s := rmwStep spent t2
      runRMWSchedule s.1 t1 s.2 rest
    else
      let s := rmwStep spent t1
      runRMWSchedule s.1 s.2 t2 rest

/-! ## Concrete instances used by witnesses and counterexamples -/

/-- A small state: an ordinary user, an admin, one active FOOD_DINING budget
for the user, no expenses yet. -/
def w3_st : DBState :=
  { users := [{ id := 1, role := .USER, is_active := true },
              { id := 2, role := .ADMIN, is_active := true }]
    teams := []
    teamMembers := []
    expenses := []
    budgets := [{ id := 1, user_id := 1, category := .FOOD_DINING,
                  monthly_limit := 100, current_spent := 0,
                  alert_threshold := 80, is_active := true,
                  created_at := 0, updated_at := 0 }]
    reports := []
    nextExpenseId := 1
    nextBudgetId := 2
    nextReportId := 1 }

/-- A plain expense-creation input for user 1: 10 on FOOD_DINING. -/
def w3_input : CreateExpenseInput :=
  { user_id := 1, team_id := none, title := "Lunch", description := none,
    amount := 10, category := .FOOD_DINING, receipt_url := none,
    expense_date := 0, is_recurring := none, recurring_frequency := none,
    tags := none }

/-- An approval request: expense 1, decided by user 2, approved. -/
def w2_input : ApproveExpenseInput :=
  { expense_id := 1, approved_by := 2, status := .APPROVED }

/-- The analytics value `getExpenseAnalytics` computes for `w3_st`, user 1,
custom period `[0, 100]`, at time 0 (written as the handler composes it). -/
def w5_analytics : Analytics :=
  { spending_by_category :=
      calculateSpendingByCategory (analyticsFetch w3_st 1 0 100)
    spending_trends :=
      calculateSpendingTrends (analyticsFetch w3_st 1 0 100) .custom
    budget_performance :=
      calculateBudgetPerformance (analyticsFetch w3_st 1 0 100)
        (activeBudgetsOf w3_st 1) .custom
    top_expenses := getTopExpenses (analyticsFetch w3_st 1 0 100)
    predictions :=
      calculatePredictions 0 (analyticsFetch w3_st 1 0 100)
        (activeBudgetsOf w3_st 1) }

/-- The initial `current_spent` as the specification's words state it
("expenses … dated in the current calendar month"): the sum over the user's
expenses of the category dated anywhere in the calendar month of `now`.
This is the claim-side rendering, to be compared against
`createBudgetInitialSpent` which follows the code. -/
def claimMonthSpent (st : DBState) (now : ℤ) (userId : Nat)
    (category : ExpenseCategory) : ℚ :=
  amountSum (st.expenses.filter (fun e =>
    e.user_id == userId && e.category == category &&
      decide (inCurrentCalendarMonth now e.expense_date)))

/-- 2024-01-15 12:00:00 UTC in epoch milliseconds. -/
def c8_now : ℤ := jsDateMs 2024 0 15 12 0 0 0

/-- A state with one user whose only expense is dated at the final
millisecond of January 2024 (23:59:59.999 on the 31st). -/
def c8_st : DBState :=
  { users := [{ id := 1, role := .USER, is_active := true }]
    teams := []
    teamMembers := []
    expenses := [{ id := 1, user_id := 1, team_id := none, title := "Dinner",
                   description := none, amount := 5, category := .FOOD_DINING,
                   receipt_url := none, status := .PENDING, approved_by := none,
                   approved_at := none, expense_date := monthEndMs c8_now,
                   is_recurring := false, recurring_frequency := none,
                   tags := none, created_at := 0, updated_at := 0 }]
    budgets := []
    reports := []
    nextExpenseId := 2
    nextBudgetId := 1
    nextReportId := 1 }

/-- A budget-creation input for user 1 on FOOD_DINING. -/
def c8_input : CreateBudgetInput :=
  { user_id := 1, category := .FOOD_DINING, monthly_limit := 100,
    alert_threshold := 80 }

/-- The state after running `createExpense` (amount 10, FOOD_DINING) and then
`approveExpense` on `w3_st`: the single budget row carries `current_spent =
20` although only one expense of amount 10 exists — the amount was added once
at creation and again at approval. -/
def ce_final : DBState :=
  { users := [{ id := 1, role := .USER, is_active := true },
              { id := 2, role := .ADMIN, is_active := true }]
    teams := []
    teamMembers := []
    expenses := [{ id := 1, user_id := 1, team_id := none, title := "Lunch",
                   description := none, amount := 10, category := .FOOD_DINING,
                   receipt_url := none, status := .APPROVED,
                   approved_by := some 2, approved_at := some 0,
                   expense_date := 0, is_recurring := false,
                   recurring_frequency := none, tags := none,
                   created_at := 0, updated_at := 0 }]
    budgets := [{ id := 1, user_id := 1, category := .FOOD_DINING,
                  monthly_limit := 100, current_spent := 20,
                  alert_threshold := 80, is_active := true,
                  created_at := 0, updated_at := 0 }]
    reports := []
    nextExpenseId := 2
    nextBudgetId := 2
    nextReportId := 1 }

/-- An update that raises expense 1's amount from 10 to 20 and touches
nothing else. -/
def w4_input : UpdateExpenseInput :=
  { id := 1, title := none, description := none, amount := some 20,
    category := none, receipt_url := none, expense_date := none,
    is_recurring := none, recurring_frequency := none, tags := none }

/-- The state after `createExpense w3_input`, `approveExpense w2_input` and
`updateExpense w4_input` on `w3_st`: the approved expense now carries amount
20 while the budget row carries `current_spent = 30` — creation booked 10,
approval booked 10 again, and the update booked only the delta 10. -/
def ue_final : DBState :=
  { users := [{ id := 1, role := .USER, is_active := true },
              { id := 2, role := .ADMIN, is_active := true }]
    teams := []
    teamMembers := []
    expenses := [{ id := 1, user_id := 1, team_id := none, title := "Lunch",
                   description := none, amount := 20, category := .FOOD_DINING,
                   receipt_url := none, status := .APPROVED,
                   approved_by := some 2, approved_at := some 0,
                   expense_date := 0, is_recurring := false,
                   recurring_frequency := none, tags := none,
                   created_at := 0, updated_at := 0 }]
    budgets := [{ id := 1, user_id := 1, category := .FOOD_DINING,
                  monthly_limit := 100, current_spent := 30,
                  alert_threshold := 80, is_active := true,
                  created_at := 0, updated_at := 0 }]
    reports := []
    nextExpenseId := 2
    nextBudgetId := 2
    nextReportId := 1 }

/-! ## Theorems -/

/-- C4: no concurrency control protects the read-modify-write budget update
of `approveExpense`.  Serially, two approvals on the same budget row leave
`current_spent = spent + a1 + a2`; but there is an interleaving of the two
calls' atomic statements (read₁, read₂, write₁, write₂) in which both calls
run to completion yet the row ends at `spent + a2`: the first call's
addition is lost. -/
theorem approveExpense_lost_update (spent a1 a2 : ℚ) (h : a1 ≠ 0) :
    (runRMWSchedule spent (approvalCall a1) (approvalCall a2)
        [false, false, true, true]).1 = spent + a1 + a2 ∧
    ∃ sched : List Bool,
      (runRMWSchedule spent (approvalCall a1) (approvalCall a2) sched).2.1.phase
          = RMWPhase.finished ∧
      (runRMWSchedule spent (approvalCall a1) (approvalCall a2) sched).2.2.phase
          = RMWPhase.finished ∧
      (runRMWSchedule spent (approvalCall a1) (approvalCall a2) sched).1
          = spent + a2 ∧
      (runRMWSchedule spent (approvalCall a1) (approvalCall a2) sched).1
          ≠ spent + a1 + a2 := by
  refine ⟨by simp [runRMWSchedule, rmwStep, approvalCall],
    [false, true, false, true], by simp [runRMWSchedule, rmwStep, approvalCall],
    by simp [runRMWSchedule, rmwStep, approvalCall],
    by simp [runRMWSchedule, rmwStep, approvalCall], ?_⟩
  have hval : (runRMWSchedule spent (approvalCall a1) (approvalCall a2)
      [false, true, false, true]).1 = spent + a2 := by
    simp [runRMWSchedule, rmwStep, approvalCall]
  rw [hval]
  intro heq
  exact h (by linarith)

/-- Witness for C4 at `spent = 0`, `a1 = 5`, `a2 = 7`. -/
theorem approveExpense_lost_update_witness :
    (5 : ℚ) ≠ 0 ∧
    ((runRMWSchedule 0 (approvalCall 5) (approvalCall 7)
        [false, false, true, true]).1 = 0 + 5 + 7 ∧
    ∃ sched : List Bool,
      (runRMWSchedule 0 (approvalCall 5) (approvalCall 7) sched).2.1.phase
          = RMWPhase.finished ∧
      (runRMWSchedule 0 (approvalCall 5) (approvalCall 7) sched).2.2.phase
          = RMWPhase.finished ∧
      (runRMWSchedule 0 (approvalCall 5) (approvalCall 7) sched).1 = 0 + 7 ∧
      (runRMWSchedule 0 (approvalCall 5) (approvalCall 7) sched).1 ≠ 0 + 5 + 7) :=
  ⟨by norm_num, approveExpense_lost_update 0 5 7 (by norm_num)⟩

/-- C3: `createExpense` has no transactional boundary around its two
sequential writes.  When the validations pass and the budget `UPDATE`
fails after the expense `INSERT` succeeded, the run ends in an error, yet
the new expense row is still persisted and the budget table holds its old
rows: nothing restores the state. -/
theorem createExpense_not_atomic (st : DBState) (now : ℤ)
    (input : CreateExpenseInput)
    (huser : (st.users.find? (fun u => u.id == input.user_id)).isNone = false)
    (hteam : (jsTruthyNum input.team_id &&
      (st.teams.find? (fun t => some t == input.team_id)).isNone) = false) :
    (∃ msg, (createExpenseRun st now input true).2 = Except.error msg) ∧
    (createExpenseRun st now input true).1.expenses
        = st.expenses ++ [insertedExpense st now input] ∧
    (createExpenseRun st now input true).1.budgets = st.budgets ∧
    (createExpenseRun st now input true).1 ≠ st := by
  have hrun : createExpenseRun st now input true =
      ({ st with expenses := st.expenses ++ [insertedExpense st now input],
                 nextExpenseId := st.nextExpenseId + 1 },
       Except.error "budget update statement failed") := by
    unfold createExpenseRun
    simp [huser, hteam]
  refine ⟨⟨"budget update statement failed", by rw [hrun]⟩, by rw [hrun],
    by rw [hrun], ?_⟩
  rw [hrun]
  intro hcontra
  have hlen : (st.expenses ++ [insertedExpense st now input]).length
      = st.expenses.length := by
    conv_rhs => rw [← hcontra]
  simp at hlen

/-- Witness for C3: a state with one user, no teams and one active budget;
the failed run keeps the inserted expense. -/
theorem createExpense_not_atomic_witness :
    ((w3_st.users.find? (fun u => u.id == w3_input.user_id)).isNone = false) ∧
    ((jsTruthyNum w3_input.team_id &&
      (w3_st.teams.find? (fun t => some t == w3_input.team_id)).isNone) = false) ∧
    ((∃ msg, (createExpenseRun w3_st 0 w3_input true).2 = Except.error msg) ∧
      (createExpenseRun w3_st 0 w3_input true).1.expenses
          = w3_st.expenses ++ [insertedExpense w3_st 0 w3_input] ∧
      (createExpenseRun w3_st 0 w3_input true).1.budgets = w3_st.budgets ∧
      (createExpenseRun w3_st 0 w3_input true).1 ≠ w3_st) :=
  ⟨by decide, by decide,
    createExpense_not_atomic w3_st 0 w3_input (by decide) (by decide)⟩

/-- C2: `approveExpense` throws exactly when the approver does not exist,
the approver's role is neither ADMIN nor MANAGER, the expense does not
exist, or the expense is not PENDING; otherwise it returns the expense with
the requested status and `approved_by` set to the approver, and that row is
persisted.  No condition relates the approver to the expense's team: any
ADMIN or MANAGER can decide any pending expense. -/
theorem approveExpense_guard_spec (st : DBState) (now : ℤ)
    (input : ApproveExpenseInput)
    (husers : (st.users.map (fun u => u.id)).Nodup)
    (hexps : (st.expenses.map (fun e => e.id)).Nodup) :
    ((∃ msg, (approveExpense st now input).2 = Except.error msg) ↔
      (¬ ∃ u ∈ st.users, u.id = input.approved_by) ∨
      (∃ u ∈ st.users, u.id = input.approved_by ∧
        u.role ≠ UserRole.ADMIN ∧ u.role ≠ UserRole.MANAGER) ∨
      (¬ ∃ e ∈ st.expenses, e.id = input.expense_id) ∨
      (∃ e ∈ st.expenses, e.id = input.expense_id ∧
        e.status ≠ ExpenseStatus.PENDING)) ∧
    ∀ ex, (approveExpense st now input).2 = Except.ok ex →
      ex.status = input.status.toStatus ∧
      ex.approved_by = some input.approved_by ∧
      ex ∈ (approveExpense st now input).1.expenses := by
  cases hu : st.users.find? (fun u => u.id == input.approved_by) with
  | none =>
    have hres : approveExpense st now input = (st, .error "Approver not found") := by
      simp [approveExpense, hu]
    rw [List.find?_eq_none] at hu
    refine ⟨⟨fun _ => Or.inl ?_, fun _ => ⟨"Approver not found", by rw [hres]⟩⟩,
      fun ex hex => ?_⟩
    · rintro ⟨u, humem, huid⟩
      exact hu u humem (by simp [huid])
    · rw [hres] at hex; cases hex
  | some approver =>
    have hamem : approver ∈ st.users := List.mem_of_find?_eq_some hu
    have haid : approver.id = input.approved_by := by
      have := List.find?_some hu; simpa using this
    cases hrole : (!(approver.role == UserRole.ADMIN ||
        approver.role == UserRole.MANAGER)) with
    | true =>
      have hres : approveExpense st now input =
          (st, .error "Insufficient permissions to approve expenses") := by
        simp [approveExpense, hu, hrole]
      have hbad : approver.role ≠ UserRole.ADMIN ∧
          approver.role ≠ UserRole.MANAGER := by
        simpa using hrole
      refine ⟨⟨fun _ => Or.inr (Or.inl ⟨approver, hamem, haid, hbad.1, hbad.2⟩),
        fun _ => ⟨"Insufficient permissions to approve expenses", by rw [hres]⟩⟩,
        fun ex hex => ?_⟩
      rw [hres] at hex; cases hex
    | false =>
      have hgood : approver.role = UserRole.ADMIN ∨
          approver.role = UserRole.MANAGER := by
        cases h3 : (approver.role == UserRole.ADMIN ||
            approver.role == UserRole.MANAGER) with
        | true => simpa using h3
        | false => rw [h3] at hrole; simp at hrole
      cases he : st.expenses.find? (fun e => e.id == input.expense_id) with
      | none =>
        have hres : approveExpense st now input = (st, .error "Expense not found") := by
          simp [approveExpense, hu, hrole, he]
        rw [List.find?_eq_none] at he
        refine ⟨⟨fun _ => Or.inr (Or.inr (Or.inl ?_)),
          fun _ => ⟨"Expense not found", by rw [hres]⟩⟩, fun ex hex => ?_⟩
        · rintro ⟨e, hemem, heid⟩
          exact he e hemem (by simp [heid])
        · rw [hres] at hex; cases hex
      | some exF =>
        have hememF : exF ∈ st.expenses := List.mem_of_find?_eq_some he
        have heidF : exF.id = input.expense_id := by
          have := List.find?_some he; simpa using this
        cases hst : (exF.status != ExpenseStatus.PENDING) with
        | true =>
          have hres : approveExpense st now input =
              (st, .error "Expense is not in pending status") := by
            simp [approveExpense, hu, hrole, he, hst]
          have hnp : exF.status ≠ ExpenseStatus.PENDING := by simpa using hst
          refine ⟨⟨fun _ => Or.inr (Or.inr (Or.inr ⟨exF, hememF, heidF, hnp⟩)),
            fun _ => ⟨"Expense is not in pending status", by rw [hres]⟩⟩,
            fun ex hex => ?_⟩
          rw [hres] at hex; cases hex
        | false =>
          have hp : exF.status = ExpenseStatus.PENDING := by simpa using hst
          have hkey : (approveExpense st now input).2
              = Except.ok (approveUpd input now exF) ∧
              (approveExpense st now input).1.expenses
              = st.expenses.map (approveUpd input now) := by
            simp only [approveExpense, hu, hrole, he, hst, Bool.false_eq_true,
              if_false]
            constructor <;> · split <;> first | rfl | (split <;> rfl)
          constructor
          · constructor
            · rintro ⟨msg, hmsg⟩
              rw [hkey.1] at hmsg; cases hmsg
            · rintro (habs | ⟨u, humem, huid, hr1, hr2⟩ | habs | ⟨e, hemem, heid, hns⟩)
              · exact absurd ⟨approver, hamem, haid⟩ habs
              · have : u = approver :=
                  List.inj_on_of_nodup_map husers humem hamem (huid.trans haid.symm)
                subst this
                rcases hgood with h | h
                · exact absurd h hr1
                · exact absurd h hr2
              · exact absurd ⟨exF, hememF, heidF⟩ habs
              · have : e = exF :=
                  List.inj_on_of_nodup_map hexps hemem hememF (heid.trans heidF.symm)
                subst this
                exact absurd hp hns
          · intro ex hex
            rw [hkey.1] at hex
            cases hex
            have hupd : approveUpd input now exF =
                { exF with status := input.status.toStatus
                           approved_by := some input.approved_by
                           approved_at := if input.status == .APPROVED then
                             some now else none
                           updated_at := now } := by
              unfold approveUpd
              rw [if_pos (by simp [heidF])]
            refine ⟨by rw [hupd], by rw [hupd], ?_⟩
            rw [hkey.2]
            exact List.mem_map_of_mem _ hememF

/-- Witness for C2 at a concrete state and input. -/
theorem approveExpense_guard_spec_witness :
    ((w3_st.users.map (fun u => u.id)).Nodup ∧
      (w3_st.expenses.map (fun e => e.id)).Nodup) ∧
    (((∃ msg, (approveExpense w3_st 0 w2_input).2 = Except.error msg) ↔
      (¬ ∃ u ∈ w3_st.users, u.id = w2_input.approved_by) ∨
      (∃ u ∈ w3_st.users, u.id = w2_input.approved_by ∧
        u.role ≠ UserRole.ADMIN ∧ u.role ≠ UserRole.MANAGER) ∨
      (¬ ∃ e ∈ w3_st.expenses, e.id = w2_input.expense_id) ∨
      (∃ e ∈ w3_st.expenses, e.id = w2_input.expense_id ∧
        e.status ≠ ExpenseStatus.PENDING)) ∧
    ∀ ex, (approveExpense w3_st 0 w2_input).2 = Except.ok ex →
      ex.status = w2_input.status.toStatus ∧
      ex.approved_by = some w2_input.approved_by ∧
      ex ∈ (approveExpense w3_st 0 w2_input).1.expenses) :=
  ⟨⟨by decide, by decide⟩,
    approveExpense_guard_spec w3_st 0 w2_input (by decide) (by decide)⟩

/-- C10: `deleteExpense` and the budget rows.  When no row matches, nothing
changes; when the deleted expense was not APPROVED, every budget row is left
unchanged; when it was APPROVED and an active matching budget exists, that
row (found first, updated by id) gets `current_spent := max 0 (current_spent
- amount)` and every other row is untouched; and the operation never leaves
a negative `current_spent` in a table that had none. -/
theorem deleteExpense_budget_spec (st : DBState) (now : ℤ)
    (expenseId userId : Nat) :
    (st.expenses.find? (fun e => e.id == expenseId && e.user_id == userId)
        = none → (deleteExpense st now expenseId userId).1 = st) ∧
    (∀ ex, st.expenses.find? (fun e => e.id == expenseId && e.user_id == userId)
        = some ex →
      (ex.status ≠ ExpenseStatus.APPROVED →
        (deleteExpense st now expenseId userId).1.budgets = st.budgets) ∧
      (ex.status = ExpenseStatus.APPROVED →
        (st.budgets.find? (fun b => b.user_id == userId &&
            b.category == ex.category && b.is_active) = none →
          (deleteExpense st now expenseId userId).1.budgets = st.budgets) ∧
        ∀ cb, st.budgets.find? (fun b => b.user_id == userId &&
            b.category == ex.category && b.is_active) = some cb →
          (deleteExpense st now expenseId userId).1.budgets
            = st.budgets.map (fun b =>
                if b.id == cb.id then
                  { b with current_spent := max 0 (cb.current_spent - ex.amount),
                           updated_at := now }
                else b))) ∧
    ((∀ b ∈ st.budgets, 0 ≤ b.current_spent) →
      ∀ b ∈ (deleteExpense st now expenseId userId).1.budgets,
        0 ≤ b.current_spent) := by
  cases hfind : st.expenses.find?
      (fun e => e.id == expenseId && e.user_id == userId) with
  | none =>
    have hres : (deleteExpense st now expenseId userId).1 = st := by
      simp [deleteExpense, hfind]
    refine ⟨fun _ => hres, ?_, ?_⟩
    · intro ex hex
      simp at hex
    · intro hnn b hb
      rw [hres] at hb
      exact hnn b hb
  | some exF =>
    have hmemF : exF ∈ st.expenses := List.mem_of_find?_eq_some hfind
    have hpredF := List.find?_some hfind
    have hcount : (st.expenses.countP
        (fun e => e.id == expenseId && e.user_id == userId) == 0) = false := by
      have hpos : 0 < st.expenses.countP
          (fun e => e.id == expenseId && e.user_id == userId) :=
        List.countP_pos_iff.mpr ⟨exF, hmemF, hpredF⟩
      simpa using Nat.pos_iff_ne_zero.mp hpos
    refine ⟨fun h => by simp at h, fun ex hex => ?_, ?_⟩
    · have hexF : ex = exF := (Option.some.inj hex).symm
      subst hexF
      constructor
      · intro hnap
        simp [deleteExpense, hfind, hcount, hnap]
      · intro hap
        constructor
        · intro hbn
          simp [deleteExpense, hfind, hcount, hap, hbn]
        · intro cb hcb
          simp [deleteExpense, hfind, hcount, hap, hcb]
    · intro hnn b hb
      by_cases hsb : exF.status = ExpenseStatus.APPROVED
      · cases hcb : st.budgets.find? (fun c => c.user_id == userId &&
            c.category == exF.category && c.is_active) with
        | none =>
          have hsame : (deleteExpense st now expenseId userId).1.budgets
              = st.budgets := by
            simp [deleteExpense, hfind, hcount, hsb, hcb]
          exact hnn b (by rwa [hsame] at hb)
        | some cb =>
          have hcbm : cb ∈ st.budgets := List.mem_of_find?_eq_some hcb
          have hmap : (deleteExpense st now expenseId userId).1.budgets
              = st.budgets.map (fun c =>
                  if c.id == cb.id then
                    { c with current_spent := max 0 (cb.current_spent - exF.amount),
                             updated_at := now }
                  else c) := by
            simp [deleteExpense, hfind, hcount, hsb, hcb]
          rw [hmap] at hb
          rcases List.mem_map.mp hb with ⟨c, hc, hcEq⟩
          by_cases hid : (c.id == cb.id) = true
          · rw [← hcEq]
            simp only [hid, if_true]
            exact le_max_left 0 _
          · rw [← hcEq]
            simp only [hid]
            simp only [if_false, Bool.false_eq_true]
            exact hnn c hc
      · have hsame : (deleteExpense st now expenseId userId).1.budgets
            = st.budgets := by
          simp [deleteExpense, hfind, hcount, hsb]
        exact hnn b (by rwa [hsame] at hb)

/-- C9: `uploadReceipt` is a stub.  It never modifies the database state; on
a valid request (existing active user, allowed mimetype, non-empty buffer of
at most 5 MB) it returns success with a URL fabricated from
`STORAGE_BASE_URL` (default `https://storage.example.com`) and the generated
filename; on any validation failure it returns `success = false` with an
empty `file_url` instead of throwing; and its outcome never depends on the
buffer's contents, only on the byte count. -/
theorem uploadReceipt_stub_spec (st : DBState) (base : Option String)
    (nowMs : ℤ) (randomId : String) (userId : Nat) (file : UploadedFile) :
    (uploadReceipt st base nowMs randomId userId file).2 = st ∧
    (uploadAccepted st userId file = true →
      (uploadReceipt st base nowMs randomId userId file).1
        = { success := true
            file_url := jsOrStr base "https://storage.example.com" ++
              "/receipts/" ++
              ("receipt_" ++ toString userId ++ "_" ++ toString nowMs ++ "_" ++
                randomId ++ "." ++
                (mimeTypeExtension file.mimetype).getD "undefined")
            message := "Receipt uploaded successfully" }) ∧
    (uploadAccepted st userId file = false →
      (uploadReceipt st base nowMs randomId userId file).1.success = false ∧
      (uploadReceipt st base nowMs randomId userId file).1.file_url = "") ∧
    (∀ other : UploadedFile, other.mimetype = file.mimetype →
      other.contents.length = file.contents.length →
      uploadReceipt st base nowMs randomId userId other
        = uploadReceipt st base nowMs randomId userId file) := by
  refine ⟨?_, ?_, ?_, ?_⟩
  · unfold uploadReceipt
    cases st.users.find? (fun u => u.id == userId) with
    | none => rfl
    | some u =>
      by_cases hact : u.is_active = true <;> simp [hact] <;> split <;>
        try rfl
      all_goals split <;> try rfl
      all_goals split <;> rfl
  · intro hacc
    cases hfu : st.users.find? (fun u => u.id == userId) with
    | none => simp [uploadAccepted, hfu] at hacc
    | some u =>
      simp only [uploadAccepted, hfu, Bool.and_eq_true, decide_eq_true_eq,
        bne_iff_ne, ne_eq] at hacc
      obtain ⟨⟨⟨hact, hmime⟩, hsize⟩, hempty⟩ := hacc
      have hmem : file.mimetype ∈ ALLOWED_MIME_TYPES := by simpa using hmime
      have hgt : ¬(MAX_FILE_SIZE < file.contents.length) := not_lt.mpr hsize
      simp [uploadReceipt, hfu, hact, hmem, hgt, hempty]
  · intro hrej
    cases hfu : st.users.find? (fun u => u.id == userId) with
    | none => simp [uploadReceipt, hfu, uploadFailure]
    | some u =>
      cases hact : u.is_active with
      | false => simp [uploadReceipt, hfu, hact, uploadFailure]
      | true =>
        cases hmime : ALLOWED_MIME_TYPES.contains file.mimetype with
        | false =>
          have hmem : file.mimetype ∉ ALLOWED_MIME_TYPES := by simpa using hmime
          simp [uploadReceipt, hfu, hact, hmem, uploadFailure]
        | true =>
          have hmem : file.mimetype ∈ ALLOWED_MIME_TYPES := by simpa using hmime
          by_cases hsz : file.contents.length > MAX_FILE_SIZE
          · simp [uploadReceipt, hfu, hact, hmem, hsz, uploadFailure]
          · by_cases hemp : file.contents.length = 0
            · simp [uploadReceipt, hfu, hact, hmem, hsz, hemp, uploadFailure]
            · exfalso
              have hok : uploadAccepted st userId file = true := by
                simp only [uploadAccepted, hfu, Bool.and_eq_true,
                  decide_eq_true_eq, bne_iff_ne, ne_eq]
                exact ⟨⟨⟨hact, hmime⟩, Nat.le_of_not_lt hsz⟩, hemp⟩
              rw [hok] at hrej
              cases hrej
  · intro other hm hl
    unfold uploadReceipt
    rw [hm, hl]

/-- C7: reports carry an expiration that retrieval honors.  Every report
`generateReport` persists has `expires_at = generation time + 60 days` for
MONTHLY, `+ 365 days` for YEARLY and `+ 30 days` for CUSTOM (never null);
and `getUserReports` returns exactly the user's reports whose `expires_at`
is null or strictly after `now`, sorted by `generated_at` descending. -/
theorem reports_expiration_spec (st : DBState) (now : ℤ)
    (input : GenerateReportInput) (userId : Nat) :
    (∀ r, (generateReport st now input).2 = Except.ok r →
      (generateReport st now input).1.reports = st.reports ++ [r] ∧
      r.expires_at = some (reportExpiresAt now input.type) ∧
      reportExpiresAt now input.type
        = now + (match input.type with
            | .MONTHLY => 60
            | .YEARLY => 365
            | .CUSTOM => 30) * 86400000) ∧
    (getUserReports st now userId).Perm
      (st.reports.filter (fun r => r.user_id == userId &&
        (match r.expires_at with
         | none => true
         | some t => decide (now < t)))) ∧
    List.Sorted (fun a b : Report => b.generated_at ≤ a.generated_at)
      (getUserReports st now userId) := by
  refine ⟨?_, ?_, ?_⟩
  · intro r hr
    by_cases hdate : input.date_from > input.date_to
    · rw [generateReport, if_pos hdate] at hr
      cases hr
    · by_cases huser : (st.users.find? (fun u => u.id == input.user_id)).isNone
        = true
      · rw [generateReport, if_neg hdate, if_pos huser] at hr
        cases hr
      · have hstate : generateReport st now input
            = ({ st with
                    reports := st.reports ++
                      [{ id := st.nextReportId
                         user_id := input.user_id
                         type := input.type
                         title := input.title
                         filters := filtersText input (reportFetch st input).length
                           (((reportFetch st input).map (fun e => e.amount)).sum)
                           (reportCategoryBreakdown (reportFetch st input))
                         generated_at := now
                         file_url := some ("/reports/" ++ toString input.user_id
                           ++ "_" ++ toString now ++ "_" ++ input.type.toLowerText
                           ++ ".pdf")
                         expires_at := some (reportExpiresAt now input.type) }]
                    nextReportId := st.nextReportId + 1 },
               Except.ok
                  { id := st.nextReportId
                    user_id := input.user_id
                    type := input.type
                    title := input.title
                    filters := filtersText input (reportFetch st input).length
                      (((reportFetch st input).map (fun e => e.amount)).sum)
                      (reportCategoryBreakdown (reportFetch st input))
                    generated_at := now
                    file_url := some ("/reports/" ++ toString input.user_id
                      ++ "_" ++ toString now ++ "_" ++ input.type.toLowerText
                      ++ ".pdf")
                    expires_at := some (reportExpiresAt now input.type) }) := by
          rw [generateReport, if_neg hdate, if_neg (by simpa using huser)]
        rw [hstate] at hr
        have hre := Except.ok.inj hr
        rw [hstate, ← hre]
        refine ⟨rfl, rfl, ?_⟩
        cases input.type <;> norm_num [reportExpiresAt]
  · have hperm1 : ((st.reports.filter (fun r => r.user_id == userId)).insertionSort
        reportNewerFirst).Perm (st.reports.filter (fun r => r.user_id == userId)) :=
      List.perm_insertionSort _ _
    have hperm2 := hperm1.filter (fun r : Report =>
      match r.expires_at with
      | none => true
      | some t => decide (now < t))
    have heq : List.filter (fun r : Report =>
          match r.expires_at with
          | none => true
          | some t => decide (now < t))
          (st.reports.filter (fun r => r.user_id == userId))
        = st.reports.filter (fun r => r.user_id == userId &&
            (match r.expires_at with
             | none => true
             | some t => decide (now < t))) := by
      rw [List.filter_filter]
      exact List.filter_congr (fun a _ => Bool.and_comm _ _)
    exact heq ▸ hperm2
  · haveI : IsTotal Report reportNewerFirst :=
      ⟨fun a b => le_total b.generated_at a.generated_at⟩
    haveI : IsTrans Report reportNewerFirst :=
      ⟨fun a b c hab hbc => le_trans hbc hab⟩
    exact (List.sorted_insertionSort reportNewerFirst _).filter _

/-! ### JavaScript-`Map` association-list lemmas -/

theorem jsMapGet?_set_self {κ β : Type} [BEq κ] [LawfulBEq κ] (k : κ) (v : β)
    (l : List (κ × β)) : jsMapGet? k (jsMapSet k v l) = some v := by
  induction l with
  | nil => simp [jsMapSet, jsMapGet?]
  | cons p rest ih =>
    obtain ⟨k1, v1⟩ := p
    by_cases h : (k1 == k) = true
    · simp [jsMapSet, jsMapGet?, h]
    · simp only [Bool.not_eq_true] at h
      simp [jsMapSet, jsMapGet?, h, ih]

theorem jsMapGet?_set_ne {κ β : Type} [BEq κ] [LawfulBEq κ] {a k : κ} (v : β)
    (l : List (κ × β)) (h : a ≠ k) :
    jsMapGet? a (jsMapSet k v l) = jsMapGet? a l := by
  induction l with
  | nil => simp [jsMapSet, jsMapGet?, Ne.symm h]
  | cons p rest ih =>
    obtain ⟨k1, v1⟩ := p
    by_cases h1 : (k1 == k) = true
    · have hk1 : k1 = k := by simpa using h1
      subst hk1
      simp [jsMapSet, jsMapGet?, h, Ne.symm h, h1]
    · simp only [Bool.not_eq_true] at h1
      by_cases h2 : (k1 == a) = true
      · simp [jsMapSet, jsMapGet?, h1, h2]
      · simp only [Bool.not_eq_true] at h2
        simp [jsMapSet, jsMapGet?, h1, h2, ih]

theorem mem_keys_jsMapSet {κ β : Type} [BEq κ] [LawfulBEq κ] (a k : κ) (v : β)
    (l : List (κ × β)) :
    a ∈ (jsMapSet k v l).map Prod.fst ↔ a = k ∨ a ∈ l.map Prod.fst := by
  induction l with
  | nil => simp [jsMapSet]
  | cons p rest ih =>
    obtain ⟨k1, v1⟩ := p
    by_cases h : (k1 == k) = true
    · have hk1 : k1 = k := by simpa using h
      subst hk1
      simp only [jsMapSet, h, if_true, List.map_cons, List.mem_cons]
      tauto
    · simp only [Bool.not_eq_true] at h
      simp only [jsMapSet, h, Bool.false_eq_true, if_false, List.map_cons,
        List.mem_cons, ih]
      tauto

theorem keys_nodup_jsMapSet {κ β : Type} [BEq κ] [LawfulBEq κ] (k : κ) (v : β)
    (l : List (κ × β)) (h : (l.map Prod.fst).Nodup) :
    ((jsMapSet k v l).map Prod.fst).Nodup := by
  induction l with
  | nil => simp [jsMapSet]
  | cons p rest ih =>
    obtain ⟨k1, v1⟩ := p
    simp only [List.map_cons, List.nodup_cons] at h
    by_cases h1 : (k1 == k) = true
    · have hk1 : k1 = k := by simpa using h1
      subst hk1
      simp only [jsMapSet, h1, if_true]
      simp only [List.map_cons, List.nodup_cons]
      exact h
    · simp only [Bool.not_eq_true] at h1
      have hne : k1 ≠ k := by
        intro hcontra
        rw [hcontra] at h1
        simp at h1
      simp only [jsMapSet, h1]
      simp only [Bool.false_eq_true, if_false, List.map_cons, List.nodup_cons]
      refine ⟨?_, ih h.2⟩
      rw [mem_keys_jsMapSet]
      rintro (hc | hc)
      · exact hne hc
      · exact h.1 hc

theorem jsMapGet?_of_mem {κ β : Type} [BEq κ] [LawfulBEq κ]
    (l : List (κ × β)) (p : κ × β) (hnd : (l.map Prod.fst).Nodup)
    (hp : p ∈ l) : jsMapGet? p.1 l = some p.2 := by
  induction l with
  | nil => simp at hp
  | cons q rest ih =>
    obtain ⟨k1, v1⟩ := q
    simp only [List.map_cons, List.nodup_cons] at hnd
    rcases List.mem_cons.mp hp with hq | hq
    · subst hq
      simp [jsMapGet?]
    · have hne : (k1 == p.1) = false := by
        rw [beq_eq_false_iff_ne]
        intro hcontra
        apply hnd.1
        rw [hcontra]
        exact List.mem_map_of_mem Prod.fst hq
      simp [jsMapGet?, hne]
      exact ih hnd.2 hq

/-! ### Per-category grouping lemmas -/

theorem catSum_cons (c : ExpenseCategory) (e : Expense) (es : List Expense) :
    catSum c (e :: es)
      = (if e.category = c then e.amount else 0) + catSum c es := by
  by_cases h : e.category = c
  · simp [catSum, List.filter_cons, h]
  · simp [catSum, List.filter_cons, h]

theorem catSum_eq_zero (c : ExpenseCategory) (es : List Expense)
    (h : c ∉ es.map (fun e => e.category)) : catSum c es = 0 := by
  have hfil : es.filter (fun e => e.category == c) = [] := by
    rw [List.filter_eq_nil_iff]
    intro e he
    simp only [beq_iff_eq]
    intro hc
    exact h (by rw [← hc]; exact List.mem_map_of_mem _ he)
  simp [catSum, hfil]

theorem categoryTotals_fold_get (es : List Expense)
    (acc : List (ExpenseCategory × ℚ)) (c : ExpenseCategory) :
    jsMapGet? c (es.foldl (fun acc e =>
        jsMapSet e.category ((jsMapGet? e.category acc).getD 0 + e.amount) acc)
        acc)
      = if c ∈ es.map (fun e => e.category) then
          some ((jsMapGet? c acc).getD 0 + catSum c es)
        else jsMapGet? c acc := by
  induction es generalizing acc with
  | nil => simp
  | cons e rest ih =>
    rw [List.foldl_cons, ih]
    by_cases hc : c = e.category
    · subst hc
      rw [jsMapGet?_set_self]
      by_cases hmem : e.category ∈ rest.map (fun e2 => e2.category)
      · rw [if_pos hmem, if_pos (by simp)]
        rw [catSum_cons, if_pos rfl]
        simp only [Option.getD_some]
        rw [add_assoc]
      · rw [if_neg hmem, if_pos (by simp)]
        rw [catSum_cons, if_pos rfl, catSum_eq_zero _ rest hmem, add_zero]
    · rw [jsMapGet?_set_ne _ _ hc]
      have hmm : c ∈ (e :: rest).map (fun e => e.category) ↔
          c ∈ rest.map (fun e => e.category) := by
        simp [Ne.symm hc, hc]
      rw [catSum_cons,
        if_neg (show ¬ e.category = c from fun h => hc h.symm), zero_add]
      by_cases hmem : c ∈ rest.map (fun e => e.category)
      · rw [if_pos hmem, if_pos (hmm.mpr hmem)]
      · rw [if_neg hmem, if_neg (fun h => hmem (hmm.mp h))]

theorem categoryTotalsOf_get (es : List Expense) (c : ExpenseCategory) :
    jsMapGet? c (categoryTotalsOf es)
      = if c ∈ es.map (fun e => e.category) then some (catSum c es) else none := by
  have h := categoryTotals_fold_get es [] c
  simpa [categoryTotalsOf, jsMapGet?] using h

theorem mem_keys_categoryTotals_fold (es : List Expense)
    (acc : List (ExpenseCategory × ℚ)) (c : ExpenseCategory) :
    c ∈ (es.foldl (fun acc e =>
        jsMapSet e.category ((jsMapGet? e.category acc).getD 0 + e.amount) acc)
        acc).map Prod.fst
      ↔ c ∈ acc.map Prod.fst ∨ c ∈ es.map (fun e => e.category) := by
  induction es generalizing acc with
  | nil => simp
  | cons e rest ih =>
    rw [List.foldl_cons, ih, mem_keys_jsMapSet]
    simp only [List.map_cons, List.mem_cons]
    tauto

theorem keys_nodup_categoryTotals_fold (es : List Expense)
    (acc : List (ExpenseCategory × ℚ))
    (h : (acc.map Prod.fst).Nodup) :
    ((es.foldl (fun acc e =>
        jsMapSet e.category ((jsMapGet? e.category acc).getD 0 + e.amount) acc)
        acc).map Prod.fst).Nodup := by
  induction es generalizing acc with
  | nil => exact h
  | cons e rest ih =>
    rw [List.foldl_cons]
    exact ih _ (keys_nodup_jsMapSet _ _ _ h)

theorem categoryTotalsOf_keys_nodup (es : List Expense) :
    ((categoryTotalsOf es).map Prod.fst).Nodup :=
  keys_nodup_categoryTotals_fold es [] (by simp)

theorem mem_keys_categoryTotalsOf (es : List Expense) (c : ExpenseCategory) :
    c ∈ (categoryTotalsOf es).map Prod.fst ↔
      c ∈ es.map (fun e => e.category) := by
  have h := mem_keys_categoryTotals_fold es [] c
  simpa [categoryTotalsOf] using h

theorem categoryTotalsOf_mem_val (es : List Expense) (p : ExpenseCategory × ℚ)
    (hp : p ∈ categoryTotalsOf es) :
    p.2 = catSum p.1 es ∧ p.1 ∈ es.map (fun e => e.category) := by
  have hkey : p.1 ∈ (categoryTotalsOf es).map Prod.fst :=
    List.mem_map_of_mem _ hp
  have hmem := (mem_keys_categoryTotalsOf es p.1).mp hkey
  have hget := jsMapGet?_of_mem _ p (categoryTotalsOf_keys_nodup es) hp
  rw [categoryTotalsOf_get, if_pos hmem] at hget
  exact ⟨(Option.some.inj hget).symm, hmem⟩

theorem foldl_add_amount (es : List Expense) (q : ℚ) :
    es.foldl (fun t e => t + e.amount) q = q + amountSum es := by
  induction es generalizing q with
  | nil => simp [amountSum]
  | cons e rest ih =>
    rw [List.foldl_cons, ih]
    simp [amountSum]
    ring

theorem amountSum_nonneg (es : List Expense)
    (hnn : ∀ e ∈ es, 0 ≤ e.amount) : 0 ≤ amountSum es := by
  apply List.sum_nonneg
  intro x hx
  rcases List.mem_map.mp hx with ⟨e, he, rfl⟩
  exact hnn e he

theorem calculateSpendingByCategory_spec (es : List Expense)
    (hnn : ∀ e ∈ es, 0 ≤ e.amount) :
    ((calculateSpendingByCategory es).map (fun s => s.category)).Nodup ∧
    (∀ c, c ∈ (calculateSpendingByCategory es).map (fun s => s.category) ↔
      c ∈ es.map (fun e => e.category)) ∧
    (∀ s ∈ calculateSpendingByCategory es,
      s.amount = catSum s.category es ∧
      (amountSum es = 0 → s.percentage = 0) ∧
      (amountSum es ≠ 0 →
        s.percentage = s.amount / amountSum es * 100)) ∧
    List.Sorted (fun x y : CategorySpending => y.amount ≤ x.amount)
      (calculateSpendingByCategory es) := by
  have htot : es.foldl (fun t e => t + e.amount) 0 = amountSum es := by
    rw [foldl_add_amount, zero_add]
  have hre : calculateSpendingByCategory es
      = ((categoryTotalsOf es).map (fun p =>
          { category := p.1
            amount := p.2
            percentage := if es.foldl (fun t e => t + e.amount) 0 > 0 then
              p.2 / es.foldl (fun t e => t + e.amount) 0 * 100 else 0
            : CategorySpending })).insertionSort moreSpending := rfl
  have hperm : (calculateSpendingByCategory es).Perm
      ((categoryTotalsOf es).map (fun p =>
          { category := p.1
            amount := p.2
            percentage := if es.foldl (fun t e => t + e.amount) 0 > 0 then
              p.2 / es.foldl (fun t e => t + e.amount) 0 * 100 else 0
            : CategorySpending })) := by
    rw [hre]
    exact List.perm_insertionSort _ _
  have hkeys : ((categoryTotalsOf es).map (fun p =>
      { category := p.1
        amount := p.2
        percentage := if es.foldl (fun t e => t + e.amount) 0 > 0 then
          p.2 / es.foldl (fun t e => t + e.amount) 0 * 100 else 0
        : CategorySpending })).map (fun s => s.category)
      = (categoryTotalsOf es).map Prod.fst := by
    rw [List.map_map]
    rfl
  refine ⟨?_, ?_, ?_, ?_⟩
  · rw [List.Perm.nodup_iff (hperm.map (fun s => s.category)), hkeys]
    exact categoryTotalsOf_keys_nodup es
  · intro c
    rw [List.Perm.mem_iff (hperm.map (fun s => s.category)), hkeys]
    exact mem_keys_categoryTotalsOf es c
  · intro s hs
    have hs2 := hperm.subset hs
    rcases List.mem_map.mp hs2 with ⟨p, hpmem, hpeq⟩
    have hval := categoryTotalsOf_mem_val es p hpmem
    have hsa : s.amount = p.2 := by rw [← hpeq]
    have hsc : s.category = p.1 := by rw [← hpeq]
    refine ⟨by rw [hsa, hsc, hval.1], ?_, ?_⟩
    · intro hz
      have hsp : s.percentage = if es.foldl (fun t e => t + e.amount) 0 > 0 then
          p.2 / es.foldl (fun t e => t + e.amount) 0 * 100 else 0 := by
        rw [← hpeq]
      rw [hsp, htot, hz]
      norm_num
    · intro hz
      have hpos : 0 < amountSum es :=
        lt_of_le_of_ne (amountSum_nonneg es hnn) (Ne.symm hz)
      have hsp : s.percentage = if es.foldl (fun t e => t + e.amount) 0 > 0 then
          p.2 / es.foldl (fun t e => t + e.amount) 0 * 100 else 0 := by
        rw [← hpeq]
      rw [hsp, htot, if_pos hpos, hsa]
  · rw [hre]
    exact List.sorted_insertionSort moreSpending _

/-- C5: `spending_by_category` of `getExpenseAnalytics` lists each category
occurring among the user's fetched expenses exactly once, with `amount` the
sum of that category's amounts, `percentage = amount / total * 100` (`0`
when the total is zero), sorted by amount descending. -/
theorem analytics_spending_by_category_spec (st : DBState) (now : ℤ)
    (userId : Nat) (period : AnalyticsPeriod) (startDate endDate : Option ℤ)
    (a : Analytics) (dateFrom dateTo : ℤ)
    (hnn : ∀ e ∈ st.expenses, 0 ≤ e.amount)
    (hrange : calculateDateRange period startDate endDate now
      = Except.ok (dateFrom, dateTo))
    (hok : getExpenseAnalytics st now userId period startDate endDate
      = Except.ok a) :
    ((a.spending_by_category.map (fun s => s.category)).Nodup) ∧
    (∀ c, c ∈ a.spending_by_category.map (fun s => s.category) ↔
      c ∈ (analyticsFetch st userId dateFrom dateTo).map (fun e => e.category)) ∧
    (∀ s ∈ a.spending_by_category,
      s.amount = catSum s.category (analyticsFetch st userId dateFrom dateTo) ∧
      (amountSum (analyticsFetch st userId dateFrom dateTo) = 0 →
        s.percentage = 0) ∧
      (amountSum (analyticsFetch st userId dateFrom dateTo) ≠ 0 →
        s.percentage = s.amount /
          amountSum (analyticsFetch st userId dateFrom dateTo) * 100)) ∧
    List.Sorted (fun x y : CategorySpending => y.amount ≤ x.amount)
      a.spending_by_category := by
  have ha : a.spending_by_category
      = calculateSpendingByCategory (analyticsFetch st userId dateFrom dateTo) := by
    simp only [getExpenseAnalytics, hrange] at hok
    rw [← Except.ok.inj hok]
  have hfnn : ∀ e ∈ analyticsFetch st userId dateFrom dateTo, 0 ≤ e.amount := by
    intro e he
    apply hnn
    unfold analyticsFetch at he
    have := (List.perm_insertionSort expenseNewerFirst
      (st.expenses.filter (fun e => e.user_id == userId &&
        decide (dateFrom ≤ e.expense_date) &&
        decide (e.expense_date ≤ dateTo)))).subset he
    exact List.mem_of_mem_filter this
  rw [ha]
  exact calculateSpendingByCategory_spec _ hfnn

theorem categoryTotalsOf_getD (es : List Expense) (c : ExpenseCategory) :
    (jsMapGet? c (categoryTotalsOf es)).getD 0 = catSum c es := by
  rw [categoryTotalsOf_get]
  by_cases h : c ∈ es.map (fun e => e.category)
  · simp [h]
  · simp [h, catSum_eq_zero c es h]

theorem daysWithDataOf_ge_one (now : ℤ) (recent : List Expense) :
    1 ≤ daysWithDataOf now recent := by
  unfold daysWithDataOf
  split
  · exact le_max_left 1 _
  · norm_num

theorem max_one_daysWithDataOf (now : ℤ) (recent : List Expense) :
    max 1 (daysWithDataOf now recent) = daysWithDataOf now recent :=
  max_eq_right (daysWithDataOf_ge_one now recent)

/-- C6: the predictions of `getExpenseAnalytics` are the naive linear
projection.  `next_month_spending = (recent total / d) * 30` where the
recent expenses are the fetched ones dated on or after `now - 30` days and
`d` is `max(1, ceil((now - earliest recent date) / day))` when recent
expenses exist, `30` otherwise; and `budget_alerts` holds exactly the active
budgets whose projected category spending `(recent category total / d) * 30`
exceeds `monthly_limit`, paired with the excess, sorted descending. -/
theorem analytics_predictions_spec (st : DBState) (now : ℤ) (userId : Nat)
    (period : AnalyticsPeriod) (startDate endDate : Option ℤ) (a : Analytics)
    (dateFrom dateTo : ℤ)
    (hrange : calculateDateRange period startDate endDate now
      = Except.ok (dateFrom, dateTo))
    (hok : getExpenseAnalytics st now userId period startDate endDate
      = Except.ok a) :
    (a.predictions.next_month_spending
      = amountSum (recentExpensesOf now (analyticsFetch st userId dateFrom dateTo))
        / ((daysWithDataOf now
            (recentExpensesOf now (analyticsFetch st userId dateFrom dateTo)) : ℤ)
           : ℚ) * 30) ∧
    ((recentExpensesOf now (analyticsFetch st userId dateFrom dateTo) ≠ [] →
      daysWithDataOf now (recentExpensesOf now (analyticsFetch st userId dateFrom dateTo))
        = max 1 (ceilDivInt (now - listMinInt
            ((recentExpensesOf now (analyticsFetch st userId dateFrom dateTo)).map
              (fun e => e.expense_date))) msPerDay)) ∧
     (recentExpensesOf now (analyticsFetch st userId dateFrom dateTo) = [] →
      daysWithDataOf now (recentExpensesOf now (analyticsFetch st userId dateFrom dateTo))
        = 30)) ∧
    (a.predictions.budget_alerts).Perm
      (((activeBudgetsOf st userId).filter (fun b =>
          decide (catSum b.category
              (recentExpensesOf now (analyticsFetch st userId dateFrom dateTo))
            / ((daysWithDataOf now
                (recentExpensesOf now (analyticsFetch st userId dateFrom dateTo)) : ℤ)
               : ℚ) * 30 > b.monthly_limit))).map (fun b =>
        { category := b.category
          projected_overspend := catSum b.category
              (recentExpensesOf now (analyticsFetch st userId dateFrom dateTo))
            / ((daysWithDataOf now
                (recentExpensesOf now (analyticsFetch st userId dateFrom dateTo)) : ℤ)
               : ℚ) * 30 - b.monthly_limit
          : BudgetAlert })) ∧
    List.Sorted (fun x y : BudgetAlert =>
      y.projected_overspend ≤ x.projected_overspend)
      a.predictions.budget_alerts := by
  have ha : a.predictions = calculatePredictions now
      (analyticsFetch st userId dateFrom dateTo) (activeBudgetsOf st userId) := by
    simp only [getExpenseAnalytics, hrange] at hok
    rw [← Except.ok.inj hok]
  set F := analyticsFetch st userId dateFrom dateTo with hF
  set R := recentExpensesOf now F with hR
  set d := daysWithDataOf now R with hd
  refine ⟨?_, ⟨?_, ?_⟩, ?_, ?_⟩
  · have hnext : a.predictions.next_month_spending
        = (R.foldl (fun t e => t + e.amount) 0) / ((d : ℤ) : ℚ) * 30 := by
      rw [ha]; rfl
    rw [hnext, foldl_add_amount, zero_add]
  · intro hne
    rw [hd]
    unfold daysWithDataOf
    rw [if_pos]
    simpa using List.length_pos.mpr hne
  · intro hnil
    rw [hd, hnil]
    rfl
  · have halerts : a.predictions.budget_alerts
        = (((activeBudgetsOf st userId).map (fun b =>
            { category := b.category
              projected_overspend := max 0
                ((jsMapGet? b.category (categoryTotalsOf R)).getD 0
                  / ((max 1 d : ℤ) : ℚ) * 30 - b.monthly_limit)
              : BudgetAlert })).filter (fun al =>
            decide (al.projected_overspend > 0))).insertionSort
          biggerOverspend := by
      rw [ha]; rfl
    have hproj : ∀ b : Budget,
        (jsMapGet? b.category (categoryTotalsOf R)).getD 0
            / ((max 1 d : ℤ) : ℚ) * 30
          = catSum b.category R / ((d : ℤ) : ℚ) * 30 := by
      intro b
      rw [categoryTotalsOf_getD, hd, max_one_daysWithDataOf]
    rw [halerts]
    refine (List.perm_insertionSort _ _).trans ?_
    rw [List.filter_map]
    have hfcongr : (activeBudgetsOf st userId).filter
        ((fun al : BudgetAlert => decide (al.projected_overspend > 0)) ∘
          (fun b => { category := b.category
                      projected_overspend := max 0
                        ((jsMapGet? b.category (categoryTotalsOf R)).getD 0
                          / ((max 1 d : ℤ) : ℚ) * 30 - b.monthly_limit)
                      : BudgetAlert }))
        = (activeBudgetsOf st userId).filter (fun b =>
            decide (catSum b.category R / ((d : ℤ) : ℚ) * 30
              > b.monthly_limit)) := by
      apply List.filter_congr
      intro b _
      simp only [Function.comp_apply, decide_eq_decide]
      rw [hproj b]
      constructor
      · intro hgt
        by_contra hle
        rw [not_lt] at hle
        have : max 0 (catSum b.category R / ((d : ℤ) : ℚ) * 30
            - b.monthly_limit) = 0 := max_eq_left (by linarith)
        rw [this] at hgt
        exact lt_irrefl 0 hgt
      · intro hgt
        have hx : (0:ℚ) < catSum b.category R / ((d : ℤ) : ℚ) * 30
            - b.monthly_limit := by linarith
        rw [max_eq_right (le_of_lt hx)]
        exact hx
    rw [hfcongr]
    have hmcongr : ((activeBudgetsOf st userId).filter (fun b =>
          decide (catSum b.category R / ((d : ℤ) : ℚ) * 30
            > b.monthly_limit))).map (fun b =>
          { category := b.category
            projected_overspend := max 0
              ((jsMapGet? b.category (categoryTotalsOf R)).getD 0
                / ((max 1 d : ℤ) : ℚ) * 30 - b.monthly_limit)
            : BudgetAlert })
        = ((activeBudgetsOf st userId).filter (fun b =>
            decide (catSum b.category R / ((d : ℤ) : ℚ) * 30
              > b.monthly_limit))).map (fun b =>
          { category := b.category
            projected_overspend := catSum b.category R / ((d : ℤ) : ℚ) * 30
              - b.monthly_limit
            : BudgetAlert }) := by
      apply List.map_congr_left
      intro b hb
      have hkeep := List.of_mem_filter hb
      rw [decide_eq_true_eq] at hkeep
      have hx : (0:ℚ) < catSum b.category R / ((d : ℤ) : ℚ) * 30
          - b.monthly_limit := by linarith
      rw [hproj b, max_eq_right (le_of_lt hx)]
    rw [hmcongr]
  · have halerts : a.predictions.budget_alerts
        = (((activeBudgetsOf st userId).map (fun b =>
            { category := b.category
              projected_overspend := max 0
                ((jsMapGet? b.category (categoryTotalsOf R)).getD 0
                  / ((max 1 d : ℤ) : ℚ) * 30 - b.monthly_limit)
              : BudgetAlert })).filter (fun al =>
            decide (al.projected_overspend > 0))).insertionSort
          biggerOverspend := by
      rw [ha]; rfl
    rw [halerts]
    exact List.sorted_insertionSort biggerOverspend _

/-- Witness for C5 at the concrete state `w3_st`, user 1, custom period. -/
theorem analytics_spending_by_category_spec_witness :
    (∀ e ∈ w3_st.expenses, 0 ≤ e.amount) ∧
    calculateDateRange .custom (some 0) (some 100) 0 = Except.ok (0, 100) ∧
    getExpenseAnalytics w3_st 0 1 .custom (some 0) (some 100)
      = Except.ok w5_analytics ∧
    (((w5_analytics.spending_by_category.map (fun s => s.category)).Nodup) ∧
    (∀ c, c ∈ w5_analytics.spending_by_category.map (fun s => s.category) ↔
      c ∈ (analyticsFetch w3_st 1 0 100).map (fun e => e.category)) ∧
    (∀ s ∈ w5_analytics.spending_by_category,
      s.amount = catSum s.category (analyticsFetch w3_st 1 0 100) ∧
      (amountSum (analyticsFetch w3_st 1 0 100) = 0 → s.percentage = 0) ∧
      (amountSum (analyticsFetch w3_st 1 0 100) ≠ 0 →
        s.percentage = s.amount / amountSum (analyticsFetch w3_st 1 0 100) * 100)) ∧
    List.Sorted (fun x y : CategorySpending => y.amount ≤ x.amount)
      w5_analytics.spending_by_category) :=
  ⟨by simp [w3_st], rfl, rfl,
    analytics_spending_by_category_spec w3_st 0 1 .custom (some 0) (some 100)
      w5_analytics 0 100 (by simp [w3_st]) rfl rfl⟩

/-- Witness for C6 at the concrete state `w3_st`, user 1, custom period. -/
theorem analytics_predictions_spec_witness :
    calculateDateRange .custom (some 0) (some 100) 0 = Except.ok (0, 100) ∧
    getExpenseAnalytics w3_st 0 1 .custom (some 0) (some 100)
      = Except.ok w5_analytics ∧
    ((w5_analytics.predictions.next_month_spending
      = amountSum (recentExpensesOf 0 (analyticsFetch w3_st 1 0 100))
        / ((daysWithDataOf 0
            (recentExpensesOf 0 (analyticsFetch w3_st 1 0 100)) : ℤ) : ℚ) * 30) ∧
    ((recentExpensesOf 0 (analyticsFetch w3_st 1 0 100) ≠ [] →
      daysWithDataOf 0 (recentExpensesOf 0 (analyticsFetch w3_st 1 0 100))
        = max 1 (ceilDivInt (0 - listMinInt
            ((recentExpensesOf 0 (analyticsFetch w3_st 1 0 100)).map
              (fun e => e.expense_date))) msPerDay)) ∧
     (recentExpensesOf 0 (analyticsFetch w3_st 1 0 100) = [] →
      daysWithDataOf 0 (recentExpensesOf 0 (analyticsFetch w3_st 1 0 100)) = 30)) ∧
    (w5_analytics.predictions.budget_alerts).Perm
      (((activeBudgetsOf w3_st 1).filter (fun b =>
          decide (catSum b.category
              (recentExpensesOf 0 (analyticsFetch w3_st 1 0 100))
            / ((daysWithDataOf 0
                (recentExpensesOf 0 (analyticsFetch w3_st 1 0 100)) : ℤ)
               : ℚ) * 30 > b.monthly_limit))).map (fun b =>
        { category := b.category
          projected_overspend := catSum b.category
              (recentExpensesOf 0 (analyticsFetch w3_st 1 0 100))
            / ((daysWithDataOf 0
                (recentExpensesOf 0 (analyticsFetch w3_st 1 0 100)) : ℤ)
               : ℚ) * 30 - b.monthly_limit
          : BudgetAlert })) ∧
    List.Sorted (fun x y : BudgetAlert =>
      y.projected_overspend ≤ x.projected_overspend)
      w5_analytics.predictions.budget_alerts) :=
  ⟨rfl, rfl,
    analytics_predictions_spec w3_st 0 1 .custom (some 0) (some 100)
      w5_analytics 0 100 rfl rfl⟩

/-- C8 (amended): `createBudget` throws `'Budget already exists for this
category'` whenever any budget row — active or inactive — already exists for
the same user and category (budgets reference existing users), so at most
one budget per (user, category) pair is maintained; on success the new
budget's `current_spent` is the sum of the user's expenses of the category
with `monthStart ≤ expense_date < monthEnd`, where `monthEnd` is the final
millisecond (23:59:59.999) of the month — one millisecond short of the full
calendar month. -/
theorem createBudget_spec (st : DBState) (now : ℤ) (input : CreateBudgetInput)
    (hfk : ∀ b ∈ st.budgets, ∃ u ∈ st.users, u.id = b.user_id)
    (hdist : st.budgets.Pairwise (fun b1 b2 =>
      ¬(b1.user_id = b2.user_id ∧ b1.category = b2.category))) :
    ((∃ b ∈ st.budgets, b.user_id = input.user_id ∧
        b.category = input.category) →
      (createBudget st now input).2
        = Except.error "Budget already exists for this category") ∧
    (∀ b, (createBudget st now input).2 = Except.ok b →
      b.current_spent
          = createBudgetInitialSpent st now input.user_id input.category ∧
      (createBudget st now input).1.budgets = st.budgets ++ [b] ∧
      ¬∃ b0 ∈ st.budgets, b0.user_id = input.user_id ∧
        b0.category = input.category) ∧
    ((createBudget st now input).1.budgets).Pairwise (fun b1 b2 =>
      ¬(b1.user_id = b2.user_id ∧ b1.category = b2.category)) := by
  by_cases hu : (st.users.find? (fun u => u.id == input.user_id)).isNone = true
  · have hres : createBudget st now input = (st, .error "User not found") := by
      simp [createBudget, hu]
    refine ⟨?_, ?_, ?_⟩
    · rintro ⟨b, hb, hbu, hbc⟩
      exfalso
      rcases hfk b hb with ⟨u, humem, huid⟩
      rw [Option.isNone_iff_eq_none, List.find?_eq_none] at hu
      exact hu u humem (by simp [huid, hbu])
    · intro b hb
      rw [hres] at hb
      cases hb
    · rw [hres]
      exact hdist
  · by_cases hex : (st.budgets.filter (fun b =>
        b.user_id == input.user_id && b.category == input.category)).length > 0
    · have hres : createBudget st now input
          = (st, .error "Budget already exists for this category") := by
        simp [createBudget, hu, hex]
      refine ⟨fun _ => by rw [hres], ?_, ?_⟩
      · intro b hb
        rw [hres] at hb
        cases hb
      · rw [hres]
        exact hdist
    · have hlen : (st.budgets.filter (fun b =>
          b.user_id == input.user_id && b.category == input.category)).length
          = 0 := by omega
      have hempty : st.budgets.filter (fun b =>
          b.user_id == input.user_id && b.category == input.category) = [] :=
        List.length_eq_zero.mp hlen
      have hnomatch : ∀ b ∈ st.budgets,
          ¬(b.user_id = input.user_id ∧ b.category = input.category) := by
        intro b hb hcontra
        have hmem : b ∈ st.budgets.filter (fun b =>
            b.user_id == input.user_id && b.category == input.category) :=
          List.mem_filter.mpr ⟨hb, by simp [hcontra.1, hcontra.2]⟩
        rw [hempty] at hmem
        simp at hmem
      have hkey : (createBudget st now input).2
          = Except.ok
              { id := st.nextBudgetId
                user_id := input.user_id
                category := input.category
                monthly_limit := input.monthly_limit
                current_spent :=
                  createBudgetInitialSpent st now input.user_id input.category
                alert_threshold := input.alert_threshold
                is_active := true
                created_at := now
                updated_at := now } ∧
          (createBudget st now input).1.budgets
          = st.budgets ++
              [{ id := st.nextBudgetId
                 user_id := input.user_id
                 category := input.category
                 monthly_limit := input.monthly_limit
                 current_spent :=
                   createBudgetInitialSpent st now input.user_id input.category
                 alert_threshold := input.alert_threshold
                 is_active := true
                 created_at := now
                 updated_at := now }] := by
        constructor <;> simp [createBudget, hu, hex]
      refine ⟨?_, ?_, ?_⟩
      · rintro ⟨b, hb, hbu, hbc⟩
        exact absurd ⟨hbu, hbc⟩ (hnomatch b hb)
      · intro b hb
        rw [hkey.1] at hb
        have hbeq := Except.ok.inj hb
        refine ⟨by rw [← hbeq], by rw [hkey.2, ← hbeq], ?_⟩
        rintro ⟨b0, hb0, h1, h2⟩
        exact hnomatch b0 hb0 ⟨h1, h2⟩
      · rw [hkey.2]
        rw [List.pairwise_append]
        refine ⟨hdist, List.pairwise_singleton _ _, ?_⟩
        intro x hx y hy
        have hy1 : y = { id := st.nextBudgetId
                         user_id := input.user_id
                         category := input.category
                         monthly_limit := input.monthly_limit
                         current_spent := createBudgetInitialSpent st now
                           input.user_id input.category
                         alert_threshold := input.alert_threshold
                         is_active := true
                         created_at := now
                         updated_at := now } := by
          simpa using hy
        rw [hy1]
        intro hcontra
        exact hnomatch x hx ⟨hcontra.1, hcontra.2⟩

/-- C8 counterexample: at `now` = 2024-01-15 12:00 UTC, an expense dated at
the month's final millisecond (Jan 31 23:59:59.999) lies in the current
calendar month, yet `createBudget` initializes `current_spent` to `0`, not
to the claimed calendar-month sum `5`: the handler's `lt(expense_date,
monthEnd)` bound excludes exactly that millisecond. -/
theorem createBudget_month_boundary_cex :
    inCurrentCalendarMonth c8_now (monthEndMs c8_now) ∧
    (createBudget c8_st c8_now c8_input).2.map (fun b => b.current_spent)
      = Except.ok 0 ∧
    claimMonthSpent c8_st c8_now 1 ExpenseCategory.FOOD_DINING = 5 ∧
    (0 : ℚ) ≠ 5 := by
  refine ⟨by decide, by rfl, ?_, by norm_num⟩
  simp +decide [claimMonthSpent, c8_st, amountSum]

/-- Witness for C8 (amended) at the concrete state `c8_st`. -/
theorem createBudget_spec_witness :
    (∀ b ∈ c8_st.budgets, ∃ u ∈ c8_st.users, u.id = b.user_id) ∧
    (c8_st.budgets.Pairwise (fun b1 b2 =>
      ¬(b1.user_id = b2.user_id ∧ b1.category = b2.category))) ∧
    (((∃ b ∈ c8_st.budgets, b.user_id = c8_input.user_id ∧
        b.category = c8_input.category) →
      (createBudget c8_st c8_now c8_input).2
        = Except.error "Budget already exists for this category") ∧
    (∀ b, (createBudget c8_st c8_now c8_input).2 = Except.ok b →
      b.current_spent
          = createBudgetInitialSpent c8_st c8_now c8_input.user_id
              c8_input.category ∧
      (createBudget c8_st c8_now c8_input).1.budgets = c8_st.budgets ++ [b] ∧
      ¬∃ b0 ∈ c8_st.budgets, b0.user_id = c8_input.user_id ∧
        b0.category = c8_input.category) ∧
    ((createBudget c8_st c8_now c8_input).1.budgets).Pairwise (fun b1 b2 =>
      ¬(b1.user_id = b2.user_id ∧ b1.category = b2.category))) :=
  ⟨by simp [c8_st], by simp [c8_st],
    createBudget_spec c8_st c8_now c8_input (by simp [c8_st]) (by simp [c8_st])⟩

/-! ### Sum bookkeeping lemmas for the budget-reconciliation invariant -/

theorem weightedSum_nil (b : Budget) : weightedSum b [] = 0 := rfl

theorem onceSum_nil (b : Budget) : onceSum b [] = 0 := rfl

theorem weightedSum_cons (b : Budget) (e : Expense) (es : List Expense) :
    weightedSum b (e :: es) = weightedContrib b e + weightedSum b es := by
  simp [weightedSum]

theorem onceSum_cons (b : Budget) (e : Expense) (es : List Expense) :
    onceSum b (e :: es) = onceContrib b e + onceSum b es := by
  simp [onceSum]

theorem weightedSum_append (b : Budget) (l1 l2 : List Expense) :
    weightedSum b (l1 ++ l2) = weightedSum b l1 + weightedSum b l2 := by
  simp [weightedSum]

theorem onceSum_append (b : Budget) (l1 l2 : List Expense) :
    onceSum b (l1 ++ l2) = onceSum b l1 + onceSum b l2 := by
  simp [onceSum]

theorem expenseMatches_spent_update (b : Budget) (x : ℚ) (y : ℤ)
    (e : Expense) :
    expenseMatches { b with current_spent := x, updated_at := y } e
      = expenseMatches b e := rfl

theorem weightedSum_spent_update (b : Budget) (x : ℚ) (y : ℤ)
    (es : List Expense) :
    weightedSum { b with current_spent := x, updated_at := y } es
      = weightedSum b es := rfl

theorem onceSum_spent_update (b : Budget) (x : ℚ) (y : ℤ) (es : List Expense) :
    onceSum { b with current_spent := x, updated_at := y } es
      = onceSum b es := rfl

theorem weightedSum_nonneg (b : Budget) (es : List Expense)
    (hpos : ∀ e ∈ es, 0 < e.amount) : 0 ≤ weightedSum b es := by
  apply List.sum_nonneg
  intro x hx
  rcases List.mem_map.mp hx with ⟨e, he, rfl⟩
  unfold weightedContrib approvalWeight
  by_cases hm : expenseMatches b e = true
  · rw [if_pos hm]
    split <;> nlinarith [hpos e he]
  · rw [if_neg hm]

theorem onceSum_nonneg (b : Budget) (es : List Expense)
    (hpos : ∀ e ∈ es, 0 < e.amount) : 0 ≤ onceSum b es := by
  apply List.sum_nonneg
  intro x hx
  rcases List.mem_map.mp hx with ⟨e, he, rfl⟩
  unfold onceContrib
  split
  · exact le_of_lt (hpos e he)
  · exact le_refl 0

theorem approveUpd_noop (input : ApproveExpenseInput) (now : ℤ) (e : Expense)
    (h : e.id ≠ input.expense_id) : approveUpd input now e = e := by
  unfold approveUpd
  rw [if_neg (by simpa using h)]

theorem approveUpd_id (input : ApproveExpenseInput) (now : ℤ) (e : Expense) :
    (approveUpd input now e).id = e.id := by
  unfold approveUpd
  split <;> rfl

theorem approveUpd_amount (input : ApproveExpenseInput) (now : ℤ)
    (e : Expense) : (approveUpd input now e).amount = e.amount := by
  unfold approveUpd
  split <;> rfl

theorem approveUpd_user_id (input : ApproveExpenseInput) (now : ℤ)
    (e : Expense) : (approveUpd input now e).user_id = e.user_id := by
  unfold approveUpd
  split <;> rfl

theorem approveUpd_category (input : ApproveExpenseInput) (now : ℤ)
    (e : Expense) : (approveUpd input now e).category = e.category := by
  unfold approveUpd
  split <;> rfl

theorem weightedContrib_approveUpd_target (b : Budget)
    (input : ApproveExpenseInput) (now : ℤ) (ex : Expense)
    (hid : ex.id = input.expense_id) (hpend : ex.status = ExpenseStatus.PENDING) :
    weightedContrib b (approveUpd input now ex)
      = weightedContrib b ex +
        (if expenseMatches b ex = true ∧
            input.status = ApprovalDecision.APPROVED then ex.amount else 0) := by
  unfold approveUpd
  rw [if_pos (by simp [hid])]
  unfold weightedContrib approvalWeight
  have hmatch : expenseMatches b
      { ex with status := input.status.toStatus
                approved_by := some input.approved_by
                approved_at := if input.status == .APPROVED then some now else none
                updated_at := now } = expenseMatches b ex := rfl
  rw [hmatch]
  cases hst : input.status <;>
    by_cases hm : expenseMatches b ex = true <;>
      simp [hm, hpend, ApprovalDecision.toStatus] <;> ring

theorem weightedSum_map_approveUpd (b : Budget) (es : List Expense)
    (ex : Expense) (input : ApproveExpenseInput) (now : ℤ)
    (hnd : (es.map (fun e => e.id)).Nodup) (hex : ex ∈ es)
    (hid : ex.id = input.expense_id)
    (hpend : ex.status = ExpenseStatus.PENDING) :
    weightedSum b (es.map (approveUpd input now))
      = weightedSum b es +
        (if expenseMatches b ex = true ∧
            input.status = ApprovalDecision.APPROVED then ex.amount else 0) := by
  induction es with
  | nil => simp at hex
  | cons e rest ih =>
    simp only [List.map_cons, List.nodup_cons] at hnd
    rw [List.map_cons, weightedSum_cons, weightedSum_cons]
    by_cases hee : e.id = input.expense_id
    · have hexe : ex = e := by
        rcases List.mem_cons.mp hex with h | h
        · exact h
        · exfalso
          apply hnd.1
          have h2 : e.id = ex.id := by rw [hee, hid]
          rw [h2]
          exact List.mem_map_of_mem _ h
      have htail : rest.map (approveUpd input now) = rest := by
        have : ∀ e2 ∈ rest, approveUpd input now e2 = e2 := by
          intro e2 he2
          apply approveUpd_noop
          intro hcontra
          apply hnd.1
          have h2 : e.id = e2.id := by rw [hee, hcontra]
          rw [h2]
          exact List.mem_map_of_mem _ he2
        have h2 : ∀ e2 ∈ rest, approveUpd input now e2 = id e2 := this
        rw [List.map_congr_left h2, List.map_id]
      rw [htail, ← hexe]
      rw [weightedContrib_approveUpd_target b input now ex hid hpend]
      ring
    · have hexr : ex ∈ rest := by
        rcases List.mem_cons.mp hex with h | h
        · exfalso
          apply hee
          rw [← h, hid]
        · exact h
      rw [approveUpd_noop input now e hee, ih hnd.2 hexr]
      ring

theorem filter_delete_eq_single (es : List Expense) (ex : Expense)
    (eid uid : Nat) (hnd : (es.map (fun e => e.id)).Nodup)
    (hfind : es.find? (fun e => e.id == eid && e.user_id == uid) = some ex) :
    es.filter (fun e => e.id == eid && e.user_id == uid) = [ex] := by
  induction es with
  | nil => simp at hfind
  | cons e rest ih =>
    simp only [List.map_cons, List.nodup_cons] at hnd
    by_cases hpe : (e.id == eid && e.user_id == uid) = true
    · rw [@List.find?_cons_of_pos _ (fun e => e.id == eid && e.user_id == uid)
        e rest hpe] at hfind
      have hexe : e = ex := Option.some.inj hfind
      rw [@List.filter_cons_of_pos _ (fun e => e.id == eid && e.user_id == uid)
        e rest hpe, hexe]
      have hrest : rest.filter (fun e => e.id == eid && e.user_id == uid)
          = [] := by
        rw [List.filter_eq_nil_iff]
        intro e2 he2 hp2
        apply hnd.1
        have heid : e.id = eid := by
          have := hpe
          simp only [Bool.and_eq_true, beq_iff_eq] at this
          exact this.1
        have he2id : e2.id = eid := by
          simp only [Bool.and_eq_true, beq_iff_eq] at hp2
          exact hp2.1
        rw [heid, ← he2id]
        exact List.mem_map_of_mem _ he2
      rw [hrest]
    · rw [@List.find?_cons_of_neg _ (fun e => e.id == eid && e.user_id == uid)
        e rest hpe] at hfind
      rw [@List.filter_cons_of_neg _ (fun e => e.id == eid && e.user_id == uid)
        e rest hpe]
      exact ih hnd.2 hfind

theorem weightedSum_filter_split (b : Budget) (p : Expense → Bool)
    (es : List Expense) :
    weightedSum b (es.filter p) +
      weightedSum b (es.filter (fun e => !(p e))) = weightedSum b es := by
  induction es with
  | nil => simp [weightedSum]
  | cons e rest ih =>
    cases hp : p e with
    | true =>
      rw [List.filter_cons_of_pos hp,
        List.filter_cons_of_neg (by simp [hp]), weightedSum_cons,
        weightedSum_cons]
      rw [← ih]
      ring
    | false =>
      rw [List.filter_cons_of_neg (by simp [hp]),
        List.filter_cons_of_pos (by simp [hp]), weightedSum_cons,
        weightedSum_cons]
      rw [← ih]
      ring

theorem budgets_map_ids_nodup (bs : List Budget) (g : Budget → Budget)
    (hg : ∀ b, (g b).id = b.id) (h : (bs.map (fun b => b.id)).Nodup) :
    ((bs.map g).map (fun b => b.id)).Nodup := by
  rw [List.map_map]
  have h2 : bs.map ((fun b => b.id) ∘ g) = bs.map (fun b => b.id) :=
    List.map_congr_left (fun b _ => hg b)
  rw [h2]
  exact h

theorem budgets_map_keysDistinct (bs : List Budget) (g : Budget → Budget)
    (hg : ∀ b, (g b).is_active = b.is_active ∧ (g b).user_id = b.user_id ∧
      (g b).category = b.category)
    (h : bs.Pairwise (fun b1 b2 =>
      ¬(b1.is_active = true ∧ b2.is_active = true ∧
        b1.user_id = b2.user_id ∧ b1.category = b2.category))) :
    (bs.map g).Pairwise (fun b1 b2 =>
      ¬(b1.is_active = true ∧ b2.is_active = true ∧
        b1.user_id = b2.user_id ∧ b1.category = b2.category)) := by
  rw [List.pairwise_map]
  apply h.imp
  intro a b hr hcontra
  apply hr
  rcases hg a with ⟨ha1, ha2, ha3⟩
  rcases hg b with ⟨hb1, hb2, hb3⟩
  exact ⟨by rw [← ha1]; exact hcontra.1, by rw [← hb1]; exact hcontra.2.1,
    by rw [← ha2, ← hb2]; exact hcontra.2.2.1,
    by rw [← ha3, ← hb3]; exact hcontra.2.2.2⟩

theorem createExpense_preserves (st : DBState) (now : ℤ)
    (input : CreateExpenseInput) (dl : List Expense)
    (hwf : WellFormedDB st) (hpos : 0 < input.amount)
    (hinv : ∀ b ∈ st.budgets, b.is_active = true →
      b.current_spent = weightedSum b st.expenses + onceSum b dl) :
    WellFormedDB (createExpense st now input).1 ∧
    ∀ b ∈ (createExpense st now input).1.budgets, b.is_active = true →
      b.current_spent = weightedSum b (createExpense st now input).1.expenses
        + onceSum b dl := by
  obtain ⟨hbid, hakd, heid, hebound, hepos⟩ := hwf
  by_cases hu : (st.users.find? (fun u => u.id == input.user_id)).isNone = true
  · have hres : (createExpense st now input).1 = st := by
      simp [createExpense, createExpenseRun, hu]
    rw [hres]
    exact ⟨⟨hbid, hakd, heid, hebound, hepos⟩, hinv⟩
  · by_cases ht : (jsTruthyNum input.team_id &&
        (st.teams.find? (fun t => some t == input.team_id)).isNone) = true
    · have hres : (createExpense st now input).1 = st := by
        simp [createExpense, createExpenseRun, hu, ht]
      rw [hres]
      exact ⟨⟨hbid, hakd, heid, hebound, hepos⟩, hinv⟩
    · have hres : (createExpense st now input).1 =
          { st with
            expenses := st.expenses ++ [insertedExpense st now input]
            nextExpenseId := st.nextExpenseId + 1
            budgets := st.budgets.map (fun b =>
              if b.user_id == input.user_id &&
                  b.category == input.category && b.is_active then
                { b with current_spent := b.current_spent + input.amount,
                         updated_at := now }
              else b) } := by
        simp [createExpense, createExpenseRun, hu, ht]
      rw [hres]
      have hfid : ∀ b : Budget,
          (if b.user_id == input.user_id && b.category == input.category &&
              b.is_active then
            { b with current_spent := b.current_spent + input.amount,
                     updated_at := now }
          else b).id = b.id := by
        intro b
        split <;> rfl
      have hffields : ∀ b : Budget,
          (if b.user_id == input.user_id && b.category == input.category &&
              b.is_active then
            { b with current_spent := b.current_spent + input.amount,
                     updated_at := now }
          else b).is_active = b.is_active ∧
          (if b.user_id == input.user_id && b.category == input.category &&
              b.is_active then
            { b with current_spent := b.current_spent + input.amount,
                     updated_at := now }
          else b).user_id = b.user_id ∧
          (if b.user_id == input.user_id && b.category == input.category &&
              b.is_active then
            { b with current_spent := b.current_spent + input.amount,
                     updated_at := now }
          else b).category = b.category := by
        intro b
        split <;> exact ⟨rfl, rfl, rfl⟩
      refine ⟨⟨?_, ?_, ?_, ?_, ?_⟩, ?_⟩
      · exact budgets_map_ids_nodup st.budgets _ hfid hbid
      · exact budgets_map_keysDistinct st.budgets _ hffields hakd
      · simp only [List.map_append, List.map_cons, List.map_nil]
        rw [List.nodup_append]
        refine ⟨heid, List.nodup_singleton _, ?_⟩
        intro x hx hx2
        rcases List.mem_map.mp hx with ⟨e, he, heq⟩
        have hlt := hebound e he
        have hxval : x = (insertedExpense st now input).id := by simpa using hx2
        have hide : e.id = st.nextExpenseId := by rw [heq, hxval]; rfl
        rw [hide] at hlt
        exact lt_irrefl _ hlt
      · intro e he
        simp only
        rcases List.mem_append.mp he with h | h
        · exact lt_trans (hebound e h) (Nat.lt_succ_self _)
        · have : e = insertedExpense st now input := by simpa using h
          rw [this]
          exact Nat.lt_succ_self _
      · intro e he
        rcases List.mem_append.mp he with h | h
        · exact hepos e h
        · have : e = insertedExpense st now input := by simpa using h
          rw [this]
          exact hpos
      · intro b2 hb2 hact
        rcases List.mem_map.mp hb2 with ⟨b, hb, hbeq⟩
        by_cases hcond : (b.user_id == input.user_id &&
            b.category == input.category && b.is_active) = true
        · rw [if_pos hcond] at hbeq
          subst hbeq
          simp only [Bool.and_eq_true, beq_iff_eq] at hcond
          obtain ⟨⟨hbu, hbc⟩, hbact⟩ := hcond
          rw [weightedSum_spent_update, onceSum_spent_update,
            weightedSum_append, weightedSum_cons, weightedSum_nil]
          have hwc : weightedContrib b (insertedExpense st now input)
              = input.amount := by
            unfold weightedContrib
            have hmatch : expenseMatches b (insertedExpense st now input)
                = true := by
              simp [expenseMatches, insertedExpense, hbu, hbc]
            rw [if_pos hmatch]
            have hw : approvalWeight (insertedExpense st now input) = 1 := rfl
            rw [hw, mul_one]
            rfl
          rw [hwc]
          have hspent := hinv b hb hbact
          show b.current_spent + input.amount
            = weightedSum b st.expenses + (input.amount + 0) + onceSum b dl
          rw [hspent]
          ring
        · rw [if_neg hcond] at hbeq
          subst hbeq
          rw [weightedSum_append, weightedSum_cons, weightedSum_nil]
          have hnmatch : ¬ expenseMatches b (insertedExpense st now input)
              = true := by
            intro hmatch
            simp only [expenseMatches, insertedExpense, Bool.and_eq_true,
              beq_iff_eq] at hmatch
            exact hcond (by simp [hact, hmatch.1.symm, hmatch.2.symm])
          have hnm : weightedContrib b (insertedExpense st now input) = 0 := by
            unfold weightedContrib
            rw [if_neg hnmatch]
          rw [hnm]
          have hspent := hinv b hb hact
          rw [hspent]
          ring

theorem approveExpense_preserves (st : DBState) (now : ℤ)
    (input : ApproveExpenseInput) (dl : List Expense)
    (hwf : WellFormedDB st)
    (hinv : ∀ b ∈ st.budgets, b.is_active = true →
      b.current_spent = weightedSum b st.expenses + onceSum b dl) :
    WellFormedDB (approveExpense st now input).1 ∧
    ∀ b ∈ (approveExpense st now input).1.budgets, b.is_active = true →
      b.current_spent = weightedSum b (approveExpense st now input).1.expenses
        + onceSum b dl := by
  obtain ⟨hbid, hakd, heid, hebound, hepos⟩ := hwf
  cases hu : st.users.find? (fun u => u.id == input.approved_by) with
  | none =>
    have hres : (approveExpense st now input).1 = st := by
      simp [approveExpense, hu]
    rw [hres]
    exact ⟨⟨hbid, hakd, heid, hebound, hepos⟩, hinv⟩
  | some approver =>
    cases hrole : (!(approver.role == UserRole.ADMIN ||
        approver.role == UserRole.MANAGER)) with
    | true =>
      have hres : (approveExpense st now input).1 = st := by
        simp [approveExpense, hu, hrole]
      rw [hres]
      exact ⟨⟨hbid, hakd, heid, hebound, hepos⟩, hinv⟩
    | false =>
      cases he : st.expenses.find? (fun e => e.id == input.expense_id) with
      | none =>
        have hres : (approveExpense st now input).1 = st := by
          simp [approveExpense, hu, hrole, he]
        rw [hres]
        exact ⟨⟨hbid, hakd, heid, hebound, hepos⟩, hinv⟩
      | some ex =>
        cases hst : (ex.status != ExpenseStatus.PENDING) with
        | true =>
          have hres : (approveExpense st now input).1 = st := by
            simp [approveExpense, hu, hrole, he, hst]
          rw [hres]
          exact ⟨⟨hbid, hakd, heid, hebound, hepos⟩, hinv⟩
        | false =>
          have hpend : ex.status = ExpenseStatus.PENDING := by simpa using hst
          have hexmem : ex ∈ st.expenses := List.mem_of_find?_eq_some he
          have hexid : ex.id = input.expense_id := by
            have := List.find?_some he
            simpa using this
          have hids : (st.expenses.map (approveUpd input now)).map
              (fun e => e.id) = st.expenses.map (fun e => e.id) := by
            rw [List.map_map]
            exact List.map_congr_left (fun e _ => approveUpd_id input now e)
          have hnodup2 : ((st.expenses.map (approveUpd input now)).map
              (fun e => e.id)).Nodup := by
            rw [hids]
            exact heid
          have hbound2 : ∀ e ∈ st.expenses.map (approveUpd input now),
              e.id < st.nextExpenseId := by
            intro e hme
            rcases List.mem_map.mp hme with ⟨e0, he0, rfl⟩
            rw [approveUpd_id]
            exact hebound e0 he0
          have hpos2 : ∀ e ∈ st.expenses.map (approveUpd input now),
              0 < e.amount := by
            intro e hme
            rcases List.mem_map.mp hme with ⟨e0, he0, rfl⟩
            rw [approveUpd_amount]
            exact hepos e0 he0
          cases hdec : input.status with
          | REJECTED =>
            have hres : (approveExpense st now input).1
                = { st with expenses := st.expenses.map (approveUpd input now) } := by
              simp [approveExpense, hu, hrole, he, hst, hdec]
            rw [hres]
            refine ⟨⟨hbid, hakd, hnodup2, hbound2, hpos2⟩, ?_⟩
            intro b hbm hact
            have hws := weightedSum_map_approveUpd b st.expenses ex input now
              heid hexmem hexid hpend
            rw [hdec] at hws
            rw [if_neg (fun h => by cases h.2)] at hws
            show b.current_spent
              = weightedSum b (st.expenses.map (approveUpd input now)) + onceSum b dl
            rw [hws, add_zero]
            exact hinv b hbm hact
          | APPROVED =>
            cases hb : st.budgets.find? (fun b => b.user_id == ex.user_id &&
                b.category == ex.category && b.is_active) with
            | none =>
              have hres : (approveExpense st now input).1
                  = { st with expenses := st.expenses.map (approveUpd input now) } := by
                simp [approveExpense, hu, hrole, he, hst, hdec,
                  approveUpd_user_id, approveUpd_category, hb]
              rw [hres]
              refine ⟨⟨hbid, hakd, hnodup2, hbound2, hpos2⟩, ?_⟩
              intro b hbm hact
              have hws := weightedSum_map_approveUpd b st.expenses ex input now
                heid hexmem hexid hpend
              have hnomatch : ¬ expenseMatches b ex = true := by
                intro hm
                rw [List.find?_eq_none] at hb
                apply hb b hbm
                simp only [expenseMatches, Bool.and_eq_true, beq_iff_eq] at hm
                simp [hm.1.symm, hm.2.symm, hact]
              rw [hdec] at hws
              rw [if_neg (fun h => hnomatch h.1)] at hws
              show b.current_spent
                = weightedSum b (st.expenses.map (approveUpd input now))
                  + onceSum b dl
              rw [hws, add_zero]
              exact hinv b hbm hact
            | some cb =>
              have hcbmem : cb ∈ st.budgets := List.mem_of_find?_eq_some hb
              have hcbp := List.find?_some hb
              simp only [Bool.and_eq_true, beq_iff_eq] at hcbp
              obtain ⟨⟨hcbu, hcbc⟩, hcbact⟩ := hcbp
              have hres : (approveExpense st now input).1
                  = { st with
                      expenses := st.expenses.map (approveUpd input now)
                      budgets := st.budgets.map (fun b =>
                        if b.id == cb.id then
                          { b with current_spent := cb.current_spent + ex.amount,
                                   updated_at := now }
                        else b) } := by
                simp [approveExpense, hu, hrole, he, hst, hdec,
                  approveUpd_user_id, approveUpd_category, approveUpd_amount, hb]
              rw [hres]
              have hgid : ∀ b : Budget, ((fun b =>
                  if b.id == cb.id then
                    { b with current_spent := cb.current_spent + ex.amount,
                             updated_at := now }
                  else b) b).id = b.id := by
                intro b
                simp only
                split <;> rfl
              have hgfields : ∀ b : Budget, ((fun b =>
                  if b.id == cb.id then
                    { b with current_spent := cb.current_spent + ex.amount,
                             updated_at := now }
                  else b) b).is_active = b.is_active ∧ ((fun b =>
                  if b.id == cb.id then
                    { b with current_spent := cb.current_spent + ex.amount,
                             updated_at := now }
                  else b) b).user_id = b.user_id ∧ ((fun b =>
                  if b.id == cb.id then
                    { b with current_spent := cb.current_spent + ex.amount,
                             updated_at := now }
                  else b) b).category = b.category := by
                intro b
                simp only
                split <;> exact ⟨rfl, rfl, rfl⟩
              refine ⟨⟨budgets_map_ids_nodup st.budgets _ hgid hbid,
                budgets_map_keysDistinct st.budgets _ hgfields hakd,
                hnodup2, hbound2, hpos2⟩, ?_⟩
              intro b2 hb2 hact
              rcases List.mem_map.mp hb2 with ⟨b, hbm, hbeq⟩
              by_cases hidm : (b.id == cb.id) = true
              · have hbcb : b = cb :=
                  List.inj_on_of_nodup_map hbid hbm hcbmem (by simpa using hidm)
                rw [if_pos hidm] at hbeq
                subst hbeq
                subst hbcb
                rw [weightedSum_spent_update, onceSum_spent_update]
                have hws := weightedSum_map_approveUpd b st.expenses ex input now
                  heid hexmem hexid hpend
                rw [hdec] at hws
                have hmatch : expenseMatches b ex = true := by
                  simp [expenseMatches, hcbu, hcbc]
                rw [if_pos ⟨hmatch, rfl⟩] at hws
                show b.current_spent + ex.amount
                  = weightedSum b (st.expenses.map (approveUpd input now))
                    + onceSum b dl
                rw [hws]
                have hspent := hinv b hbm hcbact
                rw [hspent]
                ring
              · rw [if_neg hidm] at hbeq
                subst hbeq
                have hws := weightedSum_map_approveUpd b st.expenses ex input now
                  heid hexmem hexid hpend
                rw [hdec] at hws
                have hnomatch : ¬ expenseMatches b ex = true := by
                  intro hm
                  simp only [expenseMatches, Bool.and_eq_true, beq_iff_eq] at hm
                  have hbne : b ≠ cb := by
                    intro hcontra
                    apply hidm
                    rw [hcontra]
                    simp
                  have hsym : Symmetric (fun b1 b2 : Budget =>
                      ¬(b1.is_active = true ∧ b2.is_active = true ∧
                        b1.user_id = b2.user_id ∧ b1.category = b2.category)) := by
                    intro x y hxy hc
                    exact hxy ⟨hc.2.1, hc.1, hc.2.2.1.symm, hc.2.2.2.symm⟩
                  exact (hakd.forall hsym) hbm hcbmem hbne
                    ⟨hact, hcbact, by rw [← hm.1, hcbu], by rw [← hm.2, hcbc]⟩
                rw [if_neg (fun h => hnomatch h.1)] at hws
                show b.current_spent
                  = weightedSum b (st.expenses.map (approveUpd input now))
                    + onceSum b dl
                rw [hws, add_zero]
                exact hinv b hbm hact

theorem weightedContrib_eq_onceContrib (b : Budget) (e : Expense)
    (h : e.status ≠ ExpenseStatus.APPROVED) :
    weightedContrib b e = onceContrib b e := by
  unfold weightedContrib onceContrib approvalWeight
  rw [if_neg h]
  split <;> simp

theorem deleteExpense_preserves (st : DBState) (now : ℤ) (eid uid : Nat)
    (dl : List Expense) (hwf : WellFormedDB st)
    (hdl : ∀ e ∈ dl, 0 < e.amount)
    (hinv : ∀ b ∈ st.budgets, b.is_active = true →
      b.current_spent = weightedSum b st.expenses + onceSum b dl) :
    WellFormedDB (deleteExpense st now eid uid).1 ∧
    (∀ e ∈ deletedRows st eid uid, 0 < e.amount) ∧
    ∀ b ∈ (deleteExpense st now eid uid).1.budgets, b.is_active = true →
      b.current_spent = weightedSum b (deleteExpense st now eid uid).1.expenses
        + onceSum b (dl ++ deletedRows st eid uid) := by
  obtain ⟨hbid, hakd, heid, hebound, hepos⟩ := hwf
  have hdelpos : ∀ e ∈ deletedRows st eid uid, 0 < e.amount := by
    intro e he
    exact hepos e (List.mem_of_mem_filter he)
  cases hfind : st.expenses.find?
      (fun e => e.id == eid && e.user_id == uid) with
  | none =>
    have hres : (deleteExpense st now eid uid).1 = st := by
      simp [deleteExpense, hfind]
    have hdel : deletedRows st eid uid = [] := by
      unfold deletedRows
      rw [List.filter_eq_nil_iff]
      rw [List.find?_eq_none] at hfind
      exact hfind
    rw [hres, hdel]
    refine ⟨⟨hbid, hakd, heid, hebound, hepos⟩, by intro e he; simp at he, ?_⟩
    intro b hbm hact
    rw [List.append_nil]
    exact hinv b hbm hact
  | some ex =>
    have hexmem : ex ∈ st.expenses := List.mem_of_find?_eq_some hfind
    have hexpred := List.find?_some hfind
    have hexuid : ex.user_id = uid := by
      simp only [Bool.and_eq_true, beq_iff_eq] at hexpred
      exact hexpred.2
    have hcount : (st.expenses.countP
        (fun e => e.id == eid && e.user_id == uid) == 0) = false := by
      have hpos : 0 < st.expenses.countP
          (fun e => e.id == eid && e.user_id == uid) :=
        List.countP_pos_iff.mpr ⟨ex, hexmem, hexpred⟩
      simpa using Nat.pos_iff_ne_zero.mp hpos
    have hdel : deletedRows st eid uid = [ex] :=
      filter_delete_eq_single st.expenses ex eid uid heid hfind
    have hsplit : ∀ b : Budget,
        weightedSum b (st.expenses.filter
          (fun e => !(e.id == eid && e.user_id == uid)))
        = weightedSum b st.expenses - weightedContrib b ex := by
      intro b
      have h := weightedSum_filter_split b
        (fun e => e.id == eid && e.user_id == uid) st.expenses
      have h2 : weightedSum b (st.expenses.filter
          (fun e => e.id == eid && e.user_id == uid)) = weightedContrib b ex := by
        rw [show st.expenses.filter (fun e => e.id == eid && e.user_id == uid)
            = [ex] from hdel]
        rw [weightedSum_cons, weightedSum_nil, add_zero]
      rw [h2] at h
      linarith
    have hnodup2 : ((st.expenses.filter
        (fun e => !(e.id == eid && e.user_id == uid))).map
        (fun e => e.id)).Nodup :=
      heid.sublist ((List.filter_sublist _).map _)
    have hbound2 : ∀ e ∈ st.expenses.filter
        (fun e => !(e.id == eid && e.user_id == uid)),
        e.id < st.nextExpenseId := by
      intro e he
      exact hebound e (List.mem_of_mem_filter he)
    have hpos2 : ∀ e ∈ st.expenses.filter
        (fun e => !(e.id == eid && e.user_id == uid)), 0 < e.amount := by
      intro e he
      exact hepos e (List.mem_of_mem_filter he)
    by_cases hstat : ex.status = ExpenseStatus.APPROVED
    · cases hbud : st.budgets.find? (fun b => b.user_id == uid &&
          b.category == ex.category && b.is_active) with
      | none =>
        have hres : (deleteExpense st now eid uid).1
            = { st with expenses := (st.expenses.filter
                (fun e => !(e.id == eid && e.user_id == uid))) } := by
          simp [deleteExpense, hfind, hcount, hstat, hbud]
        rw [hres, hdel]
        refine ⟨⟨hbid, hakd, hnodup2, hbound2, hpos2⟩,
          by intro e he; simp at he; rw [he]; exact hepos ex hexmem, ?_⟩
        intro b hbm hact
        have hnomatch : ¬ expenseMatches b ex = true := by
          intro hm
          rw [List.find?_eq_none] at hbud
          apply hbud b hbm
          simp only [expenseMatches, Bool.and_eq_true, beq_iff_eq] at hm
          simp [hm.1.symm, hm.2.symm, hact, ← hexuid]
        show b.current_spent = weightedSum b (st.expenses.filter
            (fun e => !(e.id == eid && e.user_id == uid)))
          + onceSum b (dl ++ [ex])
        rw [hsplit b, onceSum_append, onceSum_cons, onceSum_nil]
        have hc1 : weightedContrib b ex = 0 := by
          unfold weightedContrib
          rw [if_neg hnomatch]
        have hc2 : onceContrib b ex = 0 := by
          unfold onceContrib
          rw [if_neg hnomatch]
        rw [hc1, hc2]
        have := hinv b hbm hact
        linarith
      | some cb =>
        have hcbmem : cb ∈ st.budgets := List.mem_of_find?_eq_some hbud
        have hcbp := List.find?_some hbud
        simp only [Bool.and_eq_true, beq_iff_eq] at hcbp
        obtain ⟨⟨hcbu, hcbc⟩, hcbact⟩ := hcbp
        have hres : (deleteExpense st now eid uid).1
            = { st with
                expenses := (st.expenses.filter
                  (fun e => !(e.id == eid && e.user_id == uid)))
                budgets := (st.budgets.map (fun b =>
                  if b.id == cb.id then
                    { b with current_spent := max 0 (cb.current_spent - ex.amount), updated_at := now }
                  else b)) } := by
          simp [deleteExpense, hfind, hcount, hstat, hbud]
        rw [hres, hdel]
        have hgid : ∀ b : Budget, ((fun b =>
            if b.id == cb.id then
              { b with current_spent := max 0 (cb.current_spent - ex.amount),
                       updated_at := now }
            else b) b).id = b.id := by
          intro b
          simp only
          split <;> rfl
        have hgfields : ∀ b : Budget, ((fun b =>
            if b.id == cb.id then
              { b with current_spent := max 0 (cb.current_spent - ex.amount),
                       updated_at := now }
            else b) b).is_active = b.is_active ∧ ((fun b =>
            if b.id == cb.id then
              { b with current_spent := max 0 (cb.current_spent - ex.amount),
                       updated_at := now }
            else b) b).user_id = b.user_id ∧ ((fun b =>
            if b.id == cb.id then
              { b with current_spent := max 0 (cb.current_spent - ex.amount),
                       updated_at := now }
            else b) b).category = b.category := by
          intro b
          simp only
          split <;> exact ⟨rfl, rfl, rfl⟩
        refine ⟨⟨budgets_map_ids_nodup st.budgets _ hgid hbid,
          budgets_map_keysDistinct st.budgets _ hgfields hakd,
          hnodup2, hbound2, hpos2⟩,
          by intro e he; simp at he; rw [he]; exact hepos ex hexmem, ?_⟩
        intro b2 hb2 hact
        rcases List.mem_map.mp hb2 with ⟨b, hbm, hbeq⟩
        by_cases hidm : (b.id == cb.id) = true
        · have hbcb : b = cb :=
            List.inj_on_of_nodup_map hbid hbm hcbmem (by simpa using hidm)
          rw [if_pos hidm] at hbeq
          subst hbeq
          subst hbcb
          rw [weightedSum_spent_update, onceSum_spent_update]
          have hmatch : expenseMatches b ex = true := by
            simp [expenseMatches, hcbu, hcbc, hexuid]
          have hcw : weightedContrib b ex = ex.amount * 2 := by
            unfold weightedContrib approvalWeight
            rw [if_pos hmatch, if_pos hstat]
          have hco : onceContrib b ex = ex.amount := by
            unfold onceContrib
            rw [if_pos hmatch]
          have hspent := hinv b hbm hcbact
          have hwrest : 0 ≤ weightedSum b st.expenses - weightedContrib b ex := by
            have h := weightedSum_filter_split b
              (fun e => e.id == eid && e.user_id == uid) st.expenses
            have h2 : weightedSum b (st.expenses.filter
                (fun e => e.id == eid && e.user_id == uid))
                = weightedContrib b ex := by
              rw [show st.expenses.filter
                  (fun e => e.id == eid && e.user_id == uid) = [ex] from hdel]
              rw [weightedSum_cons, weightedSum_nil, add_zero]
            have h3 := weightedSum_nonneg b (st.expenses.filter
              (fun e => !(e.id == eid && e.user_id == uid))) hpos2
            linarith
          have hop : 0 ≤ onceSum b dl := onceSum_nonneg b dl hdl
          have hapos : 0 < ex.amount := hepos ex hexmem
          have hcollapse : max 0 (b.current_spent - ex.amount)
              = b.current_spent - ex.amount := by
            apply max_eq_right
            rw [hspent]
            rw [hcw] at hwrest
            linarith
          show max 0 (b.current_spent - ex.amount)
            = weightedSum b (st.expenses.filter
                (fun e => !(e.id == eid && e.user_id == uid)))
              + onceSum b (dl ++ [ex])
          rw [hcollapse, hsplit b, onceSum_append, onceSum_cons, onceSum_nil,
            hcw, hco, hspent]
          ring
        · rw [if_neg hidm] at hbeq
          subst hbeq
          have hnomatch : ¬ expenseMatches b ex = true := by
            intro hm
            simp only [expenseMatches, Bool.and_eq_true, beq_iff_eq] at hm
            have hbne : b ≠ cb := by
              intro hcontra
              apply hidm
              rw [hcontra]
              simp
            have hsym : Symmetric (fun b1 b2 : Budget =>
                ¬(b1.is_active = true ∧ b2.is_active = true ∧
                  b1.user_id = b2.user_id ∧ b1.category = b2.category)) := by
              intro x y hxy hc
              exact hxy ⟨hc.2.1, hc.1, hc.2.2.1.symm, hc.2.2.2.symm⟩
            exact (hakd.forall hsym) hbm hcbmem hbne
              ⟨hact, hcbact, by rw [← hm.1, hcbu, hexuid], by rw [← hm.2, hcbc]⟩
          show b.current_spent = weightedSum b (st.expenses.filter
              (fun e => !(e.id == eid && e.user_id == uid)))
            + onceSum b (dl ++ [ex])
          rw [hsplit b, onceSum_append, onceSum_cons, onceSum_nil]
          have hc1 : weightedContrib b ex = 0 := by
            unfold weightedContrib
            rw [if_neg hnomatch]
          have hc2 : onceContrib b ex = 0 := by
            unfold onceContrib
            rw [if_neg hnomatch]
          rw [hc1, hc2]
          have := hinv b hbm hact
          linarith
    · have hstatb : (ex.status == ExpenseStatus.APPROVED) = false := by
        simpa using hstat
      have hres : (deleteExpense st now eid uid).1
          = { st with expenses := (st.expenses.filter
              (fun e => !(e.id == eid && e.user_id == uid))) } := by
        simp [deleteExpense, hfind, hcount, hstat]
      rw [hres, hdel]
      refine ⟨⟨hbid, hakd, hnodup2, hbound2, hpos2⟩,
        by intro e he; simp at he; rw [he]; exact hepos ex hexmem, ?_⟩
      intro b hbm hact
      show b.current_spent = weightedSum b (st.expenses.filter
          (fun e => !(e.id == eid && e.user_id == uid)))
        + onceSum b (dl ++ [ex])
      rw [hsplit b, onceSum_append, onceSum_cons, onceSum_nil]
      rw [weightedContrib_eq_onceContrib b ex hstat]
      have := hinv b hbm hact
      linarith

/-- C1 (code bug): the budget-reconciliation arithmetic does not keep
`current_spent` consistent with the sum of the matching expense amounts,
each counted exactly once.  From the consistent state `w3_st` (one active
FOOD_DINING budget with `current_spent = 0`, no expenses), running
`createExpense` (amount 10) and then `approveExpense` leaves
`current_spent = 20` against a once-counted sum of 10: `createExpense`
books the amount at insertion and `approveExpense` books it a second time
at approval.  Running `updateExpense` (amount 10 → 20) on top leaves
`current_spent = 30` against a once-counted sum of 20 (and a twice-counted
sum of 40): the update books only the delta, so the handlers follow no
consistent per-expense counting discipline at all. -/
theorem budget_reconciliation_failure :
    budgetConsistent w3_st ∧
    (((runOps { db := w3_st, deleted := [] }
        [(0, Op.createE w3_input), (0, Op.approveE w2_input)]).db.budgets.map
      (fun b => b.current_spent)) = [20] ∧
     ((runOps { db := w3_st, deleted := [] }
        [(0, Op.createE w3_input), (0, Op.approveE w2_input)]).db.budgets.map
      (fun b => onceSum b (runOps { db := w3_st, deleted := [] }
        [(0, Op.createE w3_input), (0, Op.approveE w2_input)]).db.expenses))
      = [10] ∧
     ¬ budgetConsistent (runOps { db := w3_st, deleted := [] }
        [(0, Op.createE w3_input), (0, Op.approveE w2_input)]).db) ∧
    (((runOps { db := w3_st, deleted := [] }
        [(0, Op.createE w3_input), (0, Op.approveE w2_input),
         (0, Op.updateE w4_input)]).db.budgets.map
      (fun b => b.current_spent)) = [30] ∧
     ((runOps { db := w3_st, deleted := [] }
        [(0, Op.createE w3_input), (0, Op.approveE w2_input),
         (0, Op.updateE w4_input)]).db.budgets.map
      (fun b => onceSum b (runOps { db := w3_st, deleted := [] }
        [(0, Op.createE w3_input), (0, Op.approveE w2_input),
         (0, Op.updateE w4_input)]).db.expenses)) = [20] ∧
     ¬ budgetConsistent (runOps { db := w3_st, deleted := [] }
        [(0, Op.createE w3_input), (0, Op.approveE w2_input),
         (0, Op.updateE w4_input)]).db) := by
  have hrun : runOps { db := w3_st, deleted := [] }
      [(0, Op.createE w3_input), (0, Op.approveE w2_input)]
      = { db := ce_final, deleted := [] } := by
    norm_num [runOps, stepOp, createExpense, createExpenseRun, insertedExpense,
      approveExpense, approveUpd, ce_final, w3_st, w3_input, w2_input,
      jsTruthyNum, jsOrNullStr, jsOrFalse, List.find?]
    rfl
  have hrun2 : runOps { db := w3_st, deleted := [] }
      [(0, Op.createE w3_input), (0, Op.approveE w2_input),
       (0, Op.updateE w4_input)]
      = { db := ue_final, deleted := [] } := by
    show stepOp (runOps { db := w3_st, deleted := [] }
        [(0, Op.createE w3_input), (0, Op.approveE w2_input)])
        (0, Op.updateE w4_input) = { db := ue_final, deleted := [] }
    rw [hrun]
    norm_num [stepOp, updateExpense, updateUpd, ce_final, ue_final, w4_input,
      List.find?]
  refine ⟨?_, ⟨?_, ?_, ?_⟩, ⟨?_, ?_, ?_⟩⟩
  · intro b hb hact
    simp only [w3_st, List.mem_singleton] at hb
    subst hb
    simp [onceSum, w3_st]
  · rw [hrun]
    rfl
  · rw [hrun]
    norm_num [ce_final, onceSum, onceContrib, expenseMatches]
  · rw [hrun]
    intro hcon
    have h := hcon
      { id := 1, user_id := 1, category := .FOOD_DINING, monthly_limit := 100,
        current_spent := 20, alert_threshold := 80, is_active := true,
        created_at := 0, updated_at := 0 } (by simp [ce_final]) rfl
    norm_num [onceSum, onceContrib, expenseMatches, ce_final] at h
  · rw [hrun2]
    rfl
  · rw [hrun2]
    norm_num [ue_final, onceSum, onceContrib, expenseMatches]
  · rw [hrun2]
    intro hcon
    have h := hcon
      { id := 1, user_id := 1, category := .FOOD_DINING, monthly_limit := 100,
        current_spent := 30, alert_threshold := 80, is_active := true,
        created_at := 0, updated_at := 0 } (by simp [ue_final]) rfl
    norm_num [onceSum, onceContrib, expenseMatches, ue_final] at h

end ExpenseManager
